import Mathlib

/-!
# OAuth callback and profile enrichment of `src/server.js`

A shallow embedding of the four route handlers of `src/server.js`
(`/auth/login`, `/callback`, `/api/profile`, `/auth/logout`).

* JavaScript values are the type `JSVal`; a thrown `TypeError` is the
  `Except.error` result of the operation that throws.
* Every outbound HTTP call (`axios.post`, `axios.get`) is answered by a
  parameter of the handler: `Fetch.failed` when axios rejects (network error
  or non-2xx status), `Fetch.ok data` when it resolves with `response.data`.
* A handler returns its HTTP response, the session after the request and the
  outbound calls it issued.
* `res.json(v)` is modelled up to the value `v` handed to it; the serialiser
  drops the properties of `v` whose value is `undefined` or a function.
* Logging (`console.error`) and the static file middleware are left out.
-/

namespace Blizz

/-! ## JavaScript values -/

/-- A high surrogate code unit. -/
def isHighSurrogate (u : Nat) : Bool := decide (0xD800 ≤ u) && decide (u ≤ 0xDBFF)

/-- A low surrogate code unit. -/
def isLowSurrogate (u : Nat) : Bool := decide (0xDC00 ≤ u) && decide (u ≤ 0xDFFF)

/-- Whether a sequence of UTF-16 code units has a surrogate that is not part
of a pair. -/
def hasLoneSurrogate : List Nat → Bool
  | [] => false
  | [u] => isHighSurrogate u || isLowSurrogate u
  | u :: v :: rest =>
    if isHighSurrogate u then
      if isLowSurrogate v then hasLoneSurrogate rest else true
    else if isLowSurrogate u then true
    else hasLoneSurrogate (v :: rest)

/-- A JavaScript string that is not well-formed Unicode: its UTF-16 code units
hold a lone surrogate (`JSON.parse` builds one from an escape such as
`\ud800`). -/
structure IllFormedText where
  units : List Nat
  inRange : units.all (fun u => decide (u < 65536)) = true
  lone : hasLoneSurrogate units = true

/-- JavaScript values that the handlers can see: what `JSON.parse` and the query
parser produce (`null`, booleans, numbers, strings, arrays, plain objects),
`undefined`, and `builtin` for an object of the runtime such as the function
`Object.prototype.toString`.  Finite numbers are rationals (every finite double
is one; `-0` is identified with `0`).  A string is either well-formed (`str`, a
sequence of Unicode scalar values) or holds a lone surrogate (`illFormed`).  A
plain object is its list of own properties in insertion order; its prototype is
`Object.prototype`.  Own properties whose name holds a lone surrogate are left
out: the handlers read and write well-formed names only. -/
inductive JSVal where
  | undefined
  | null
  | bool (b : Bool)
  | num (q : ℚ)
  | str (s : String)
  | illFormed (t : IllFormedText)
  | arr (items : List JSVal)
  | obj (fields : List (String × JSVal))
  | builtin (name : String)

/-- The exceptions the modelled code can raise: `TypeError` (property read on
`undefined` or `null`, call of a value that is not a function, conversion of
an object to text) and `URIError` (`encodeURIComponent` on a string with a lone
surrogate). -/
inductive JSError where
  | typeError
  | uriError

/-- ToBoolean: what `!x`, `x || y`, `x ? a : b` and `if (x)` test. -/
def truthy : JSVal → Bool
  | .undefined => false
  | .null => false
  | .bool b => b
  | .num q => decide (q ≠ 0)
  | .str s => decide (s ≠ "")
  | .illFormed _ => true
  | .arr _ => true
  | .obj _ => true
  | .builtin _ => true

/-- Strict equality `===`.  Primitives compare by value.  Two objects compare by
identity; the operands the handlers compare are never the same object (one
side is always fresh from a parser or a literal), hence `false`. -/
def strictEq : JSVal → JSVal → Bool
  | .undefined, .undefined => true
  | .null, .null => true
  | .bool a, .bool b => decide (a = b)
  | .num a, .num b => decide (a = b)
  | .str a, .str b => decide (a = b)
  | .illFormed a, .illFormed b => decide (a.units = b.units)
  | _, _ => false

/-- Own property lookup in a property list. -/
def lookup (k : String) : List (String × JSVal) → Option JSVal
  | [] => none
  | (k', v) :: rest => if k' = k then some v else lookup k rest

/-- Names of the properties of `Object.prototype` (ECMAScript, Annex B
included), which every plain object inherits. -/
def objectPrototypeNames : List String :=
  ["constructor", "__defineGetter__", "__defineSetter__", "hasOwnProperty",
   "__lookupGetter__", "__lookupSetter__", "isPrototypeOf", "propertyIsEnumerable",
   "toString", "valueOf", "__proto__", "toLocaleString"]

/-- Property read on `Object.prototype`: a built-in object for its own
names, `undefined` for every other name. -/
def objectPrototype (k : String) : JSVal :=
  if k ∈ objectPrototypeNames then .builtin ("Object.prototype." ++ k) else .undefined

/-- Property read `o[k]` on a plain object with own properties `fields`: the own
property if there is one, else what `Object.prototype` has. -/
def getMember (fields : List (String × JSVal)) (k : String) : JSVal :=
  match lookup k fields with
  | some v => v
  | none => objectPrototype k

/-- Property read `v.k` for the data keys the handlers read.  Reading from
`undefined` or `null` throws.  Arrays and strings have `length`; apart from
that the keys read by the handlers (`wow_accounts`, `characters`, `level`,
`realm`, `slug`, `name`, `assets`, `key`, `value`, `current_mythic_rating`,
`rating`, `character_class`, `equipped_item_level`, `access_token`) are on no
built-in prototype, so a non-object has them `undefined`.  Methods
(`find`, `filter`, `map`, `toLowerCase`) are modelled where they are called. -/
def getProp (v : JSVal) (k : String) : Except JSError JSVal :=
  match v with
  | .undefined => .error .typeError
  | .null => .error .typeError
  | .obj fields => .ok (getMember fields k)
  | .arr items => if k = "length" then .ok (.num items.length) else .ok .undefined
  | .str s => if k = "length" then .ok (.num s.utf16Length) else .ok .undefined
  | .illFormed t => if k = "length" then .ok (.num t.units.length) else .ok .undefined
  | .bool _ => .ok .undefined
  | .num _ => .ok .undefined
  | .builtin _ => .ok .undefined

/-- Own property list after the assignment `o[k] = v`. -/
def setField (k : String) (v : JSVal) : List (String × JSVal) → List (String × JSVal)
  | [] => [(k, v)]
  | (k', x) :: rest => if k' = k then (k, v) :: rest else (k', x) :: setField k v rest

/-- Assignment `o.k = v`; on a primitive it has no effect (sloppy mode). -/
def setProp (o : JSVal) (k : String) (v : JSVal) : JSVal :=
  match o with
  | .obj fields => .obj (setField k v fields)
  | other => other

/-- Comma-joined text of the parts of an array; `none` as soon as one part is
`none`. -/
def joinTexts : List (Option String) → Option String
  | [] => some ""
  | [t] => t
  | t :: rest =>
    match t, joinTexts rest with
    | some a, some b => some (a ++ "," ++ b)
    | _, _ => none

mutual
/-- ToString, as applied by template literals, `URLSearchParams` and computed
property keys.  The result `some s` is the string `s`.  The result `none`
stands for a text that is not computed here: one that contains the decimal
text of a number or a lone surrogate.  A plain object with an own `toString` property throws:
such a property is data, not callable, and `Object.prototype.valueOf` returns
the object itself.  An array joins the texts of its elements with commas. -/
def jsToString : JSVal → Except JSError (Option String)
  | .undefined => .ok (some "undefined")
  | .null => .ok (some "null")
  | .bool true => .ok (some "true")
  | .bool false => .ok (some "false")
  | .num _ => .ok none
  | .str s => .ok (some s)
  | .illFormed _ => .ok none
  | .arr items =>
    match itemTexts items with
    | .ok ts => .ok (joinTexts ts)
    | .error e => .error e
  | .obj fields =>
    match lookup "toString" fields with
    | some _ => .error .typeError
    | none => .ok (some "[object Object]")
  | .builtin n => .ok (some ("function " ++ n))
termination_by structural v => v
/-- Texts of the elements of an array, as `Array.prototype.join` takes them:
`undefined` and `null` give the empty text. -/
def itemTexts : List JSVal → Except JSError (List (Option String))
  | [] => .ok []
  | x :: rest =>
    match (match x with
           | .undefined => .ok (some "")
           | .null => .ok (some "")
           | .bool b => jsToString (.bool b)
           | .num q => jsToString (.num q)
           | .str s => jsToString (.str s)
           | .illFormed t => jsToString (.illFormed t)
           | .arr l => jsToString (.arr l)
           | .obj f => jsToString (.obj f)
           | .builtin n => jsToString (.builtin n) : Except JSError (Option String)),
          itemTexts rest with
    | .error e, _ => .error e
    | .ok _, .error e => .error e
    | .ok t, .ok ts => .ok (t :: ts)
termination_by structural l => l
end

/-! ## Sessions, calls and responses -/

/-- The two session fields the handlers use; `undefined` is "not set". -/
structure Session where
  oauthState : JSVal
  access_token : JSVal

/-- Parsed query string of a `/callback` request. -/
structure Query where
  code : JSVal
  state : JSVal

/-- Outcome of one outbound HTTP call. -/
inductive Fetch where
  | failed
  | ok (data : JSVal)

/-- Outbound calls, by endpoint and the values that select the resource.
The character endpoints are addressed by realm slug and by the lower-cased,
percent-encoded character name; the log keeps the slug and the name. -/
inductive Call where
  | tokenExchange (code : JSVal)
  | baseProfile (token : JSVal)
  | media (realmSlug : JSVal) (name : String)
  | ranking (realmSlug : JSVal) (name : String)
  | summary (realmSlug : JSVal) (name : String)

/-- HTTP response of a handler. `json v` is `res.json(v)` with the value
handed to the serialiser. -/
inductive Response where
  | status (code : Nat) (body : String)
  | redirect (location : String)
  | json (body : JSVal)

/-- What a handler did: response, session afterwards, calls issued (the
order of the calls of concurrent branches is not meaningful). -/
structure Handled where
  response : Response
  session : Session
  calls : List Call

/-! ## Authentication routes -/

/-- The constant `REDIRECT_URI` (line 14). -/
def REDIRECT_URI : String := "http://localhost:3000/callback"

/-- Handler of `GET /auth/login` (lines 31-37); `state` is the fresh random
hex string and `clientId` the configured client id. -/
def login (clientId : String) (state : String) (s : Session) : Handled :=
  { response := .redirect
      ("https://oauth.battle.net/authorize?client_id=" ++ clientId ++
       "&redirect_uri=" ++ REDIRECT_URI ++
       "&response_type=code&scope=openid wow.profile&state=" ++ state)
    session := { s with oauthState := .str state }
    calls := [] }

/-- Handler of `GET /callback` (lines 40-71); `exchange` answers the token
request.  Building the request form converts the code to text, which throws
inside the `try` block for a value that cannot be converted. -/
def callback (q : Query) (s : Session) (exchange : Fetch) : Handled :=
  if !truthy q.code || !truthy q.state || !strictEq q.state s.oauthState then
    { response := .status 400 "Invalid state parameter", session := s, calls := [] }
  else
    match jsToString q.code with
    | .error _ =>
      { response := .status 500 "Authentication failed", session := s, calls := [] }
    | .ok _ =>
      match exchange with
      | .failed =>
        { response := .status 500 "Authentication failed", session := s,
          calls := [.tokenExchange q.code] }
      | .ok data =>
        match getProp data "access_token" with
        | .error _ =>
          { response := .status 500 "Authentication failed", session := s,
            calls := [.tokenExchange q.code] }
        | .ok token =>
          { response := .redirect "/#login",
            session := { s with access_token := token },
            calls := [.tokenExchange q.code] }

/-- Handler of `GET /auth/logout` (lines 229-233): the session is destroyed. -/
def logout (_s : Session) : Handled :=
  { response := .redirect "/"
    session := { oauthState := .undefined, access_token := .undefined }
    calls := [] }

/-! ## Profile route -/

/-- The constant `MAX_LEVEL` (line 96). -/
def MAX_LEVEL : ℚ := 80

/-- The object literal `classColors` (lines 99-112). -/
def classColors : List (String × JSVal) :=
  [("Warrior", .str "#C79C6E"), ("Paladin", .str "#F58CBA"), ("Hunter", .str "#ABD473"),
   ("Rogue", .str "#FFF569"), ("Priest", .str "#FFFFFF"), ("Death Knight", .str "#C41F3B"),
   ("Shaman", .str "#0070DE"), ("Mage", .str "#69CCF0"), ("Warlock", .str "#9482C9"),
   ("Monk", .str "#00FF96"), ("Druid", .str "#FF7D0A"), ("Demon Hunter", .str "#A330C9")]

/-- The three answers to one character's requests. -/
structure CharFetches where
  media : Fetch
  ranking : Fetch
  summary : Fetch

/-- The provider during one `/api/profile` request: the answer to the base
profile request and, for the character at position `j` of the filtered list of
account `i`, the answers `chars i j` to its three requests. -/
structure World where
  base : Fetch
  chars : Nat → Nat → CharFetches

/-- The `await axios.get(url, ...)` of a branch: the response data, or `none`
when the `try` block is left, either because building the URL throws or
because the call fails. -/
def attempt (realmSlug : JSVal) (f : Fetch) : Option JSVal :=
  match jsToString realmSlug, f with
  | .ok _, .ok data => some data
  | _, _ => none

/-- The call `assets.find((asset) => asset.key === k)` on array elements. -/
def findKey (k : String) : List JSVal → Except JSError JSVal
  | [] => .ok .undefined
  | a :: rest =>
    match getProp a "key" with
    | .error e => .error e
    | .ok key => if strictEq key (.str k) then .ok a else findKey k rest

/-- The call `assets.find(...)`: only an array has a callable `find`. -/
def callFind (assets : JSVal) (k : String) : Except JSError JSVal :=
  match assets with
  | .arr items => findKey k items
  | _ => .error .typeError

/-- The element read `assets[0]`. -/
def firstItem (assets : JSVal) : JSVal :=
  match assets with
  | .arr (a :: _) => a
  | _ => .undefined

/-- The constant `avatarAsset` (lines 144-148). -/
def avatarAsset (assets : JSVal) : Except JSError JSVal := do
  let a ← callFind assets "avatar"
  if truthy a then pure a else
  let r ← callFind assets "render"
  if truthy r then pure r else
  let m ← callFind assets "main"
  if truthy m then pure m else
  pure (firstItem assets)

/-- The body of the media `try` block after the call (lines 143-149): the
value assigned to `char.media`. -/
def mediaOf (data : JSVal) : Except JSError JSVal := do
  let a ← getProp data "assets"
  let assets := if truthy a then a else .arr []
  let asset ← avatarAsset assets
  let url ← if truthy asset then getProp asset "value" else pure (.str "")
  pure (.obj [("avatar_url", url)])

/-- The media `try`/`catch` (lines 133-156): the value of `char.media`. -/
def mediaBranch (realmSlug : JSVal) (f : Fetch) : JSVal :=
  match attempt realmSlug f with
  | none => .obj [("avatar_url", .str "")]
  | some data =>
    match mediaOf data with
    | .ok m => m
    | .error _ => .obj [("avatar_url", .str "")]

/-- The body of the ranking `try` block after the call (lines 169-171): the
constant `rating`. -/
def ratingOf (data : JSVal) : Except JSError JSVal := do
  let cmr ← getProp data "current_mythic_rating"
  if truthy cmr then getProp cmr "rating" else pure (.str "N/A")

/-- The ranking `try`/`catch` (lines 159-179): the value of
`char.mythic_plus_score`. -/
def rankingBranch (realmSlug : JSVal) (f : Fetch) : JSVal :=
  match attempt realmSlug f with
  | none => .str "N/A"
  | some data =>
    match ratingOf data with
    | .ok r => r
    | .error _ => .str "N/A"

/-- The body of the summary `try` block after the call (lines 192-194): the
values assigned to `char.class` and `char.itemLevel`. -/
def summaryOf (data : JSVal) : Except JSError (JSVal × JSVal) := do
  let cc ← getProp data "character_class"
  let name ← (match cc with
    | .undefined => pure .undefined
    | .null => pure .undefined
    | other => getProp other "name")
  let cls := if truthy name then name else .str "Unknown"
  let il ← getProp data "equipped_item_level"
  pure (cls, if truthy il then il else .str "N/A")

/-- The summary `try`/`catch` (lines 182-202): the values of `char.class` and
`char.itemLevel`. -/
def summaryBranch (realmSlug : JSVal) (f : Fetch) : JSVal × JSVal :=
  match attempt realmSlug f with
  | none => (.str "Unknown", .str "N/A")
  | some data =>
    match summaryOf data with
    | .ok r => r
    | .error _ => (.str "Unknown", .str "N/A")

/-- The value assigned to `char.classColor` (lines 205-209), from the value
of `char.class`.  The computed key `classColors[char.class]` is the text of
`char.class`; a text that contains the digits of a number or a lone surrogate
names no property of `classColors` or of `Object.prototype`. -/
def classColorOf (cls : JSVal) : Except JSError JSVal :=
  if truthy cls then
    match jsToString cls with
    | .error e => .error e
    | .ok key =>
      let c := match key with
        | some k => getMember classColors k
        | none => .undefined
      .ok (if truthy c then c else .str "#FFFFFF")
  else .ok (.str "#FFFFFF")

/-- The expression `encodeURIComponent(char.name.toLowerCase())` (line 130,
outside every `try`): only a string has the method `toLowerCase`, and
`encodeURIComponent` throws on a string with a lone surrogate.  The result goes
into the request path only, so the name itself is kept. -/
def nameOf (name : JSVal) : Except JSError String :=
  match name with
  | .str s => .ok s
  | .illFormed _ => .error .uriError
  | _ => .error .typeError

/-- The URL parameters of a character (lines 129-130): `char.realm.slug` and
the name. -/
def urlParts (char : JSVal) : Except JSError (JSVal × String) := do
  let realm ← getProp char "realm"
  let slug ← getProp realm "slug"
  let name ← getProp char "name"
  let n ← nameOf name
  pure (slug, n)

/-- The calls that the three branches of one character issue. -/
def charCalls (realmSlug : JSVal) (name : String) : List Call :=
  match jsToString realmSlug with
  | .ok _ => [.media realmSlug name, .ranking realmSlug name, .summary realmSlug name]
  | .error _ => []

/-- The callback of `account.characters.map` (lines 127-212): the calls it
issues and the character it resolves with, or the error it rejects with. -/
def enrichCharacter (char : JSVal) (f : CharFetches) : List Call × Except JSError JSVal :=
  match urlParts char with
  | .error e => ([], .error e)
  | .ok (slug, name) =>
    let c1 := setProp char "media" (mediaBranch slug f.media)
    let c2 := setProp c1 "mythic_plus_score" (rankingBranch slug f.ranking)
    let c3 := setProp c2 "class" (summaryBranch slug f.summary).1
    let c4 := setProp c3 "itemLevel" (summaryBranch slug f.summary).2
    match getProp c4 "class" with
    | .error e => (charCalls slug name, .error e)
    | .ok cls =>
      match classColorOf cls with
      | .error e => (charCalls slug name, .error e)
      | .ok color => (charCalls slug name, .ok (setProp c4 "classColor" color))

/-- The filter callback `(char) => char.level === MAX_LEVEL` (line 123). -/
def isMaxLevel (char : JSVal) : Except JSError Bool :=
  match getProp char "level" with
  | .error e => .error e
  | .ok l => .ok (strictEq l (.num MAX_LEVEL))

/-- The call `account.characters.filter(...)` on array elements. -/
def filterMax : List JSVal → Except JSError (List JSVal)
  | [] => .ok []
  | c :: rest =>
    match isMaxLevel c with
    | .error e => .error e
    | .ok keep =>
      match filterMax rest with
      | .error e => .error e
      | .ok tail => .ok (if keep then c :: tail else tail)

/-- The call `xs.map(f)` where `f` takes the element and may depend on its
position (through the answers of the provider). -/
def mapFrom {α β : Type} (f : Nat → α → β) (i : Nat) : List α → List β
  | [] => []
  | x :: rest => f i x :: mapFrom f (i + 1) rest

/-- The call `Promise.all`: all results in order, or a rejection. -/
def settle : List (Except JSError JSVal) → Except JSError (List JSVal)
  | [] => .ok []
  | r :: rest =>
    match r with
    | .error e => .error e
    | .ok v =>
      match settle rest with
      | .error e => .error e
      | .ok vs => .ok (v :: vs)

/-- All calls of a list of concurrent branches. -/
def allCalls (rs : List (List Call × Except JSError JSVal)) : List Call :=
  (rs.map Prod.fst).flatten

/-- The callback of `wowAccounts.map` (lines 116-217). -/
def enrichAccount (account : JSVal) (fetches : Nat → CharFetches) :
    List Call × Except JSError JSVal :=
  match getProp account "characters" with
  | .error e => ([], .error e)
  | .ok chars =>
    if !truthy chars then ([], .ok account) else
    match getProp chars "length" with
    | .error e => ([], .error e)
    | .ok len =>
      if !truthy len then ([], .ok account) else
      match chars with
      | .arr items =>
        match filterMax items with
        | .error e => ([], .error e)
        | .ok kept =>
          let account1 := setProp account "characters" (.arr kept)
          let results := mapFrom (fun j c => enrichCharacter c (fetches j)) 0 kept
          (allCalls results,
            match settle (results.map Prod.snd) with
            | .error e => .error e
            | .ok enhanced => .ok (setProp account1 "characters" (.arr enhanced)))
      | _ => ([], .error .typeError)

/-- The `try` block of `/api/profile` after the base profile call resolved with
`profileData` (lines 89-221): the per-character calls and the value sent, or
an error. -/
def enrichProfile (profileData : JSVal) (w : World) : List Call × Except JSError JSVal :=
  match getProp profileData "wow_accounts" with
  | .error e => ([], .error e)
  | .ok wa =>
    let wowAccounts := if truthy wa then wa else .arr []
    match getProp wowAccounts "length" with
    | .error e => ([], .error e)
    | .ok len =>
      if !truthy len then ([], .ok profileData) else
      match wowAccounts with
      | .arr accounts =>
        let results := mapFrom (fun i a => enrichAccount a (w.chars i)) 0 accounts
        (allCalls results,
          match settle (results.map Prod.snd) with
          | .error e => .error e
          | .ok enhanced => .ok (setProp profileData "wow_accounts" (.arr enhanced)))
      | _ => ([], .error .typeError)

/-- Handler of `GET /api/profile` (lines 74-226).  The authorization header
is built from the token inside the `try` block. -/
def profile (s : Session) (w : World) : Handled :=
  if !truthy s.access_token then
    { response := .status 401 "Unauthorized", session := s, calls := [] }
  else
    match jsToString s.access_token with
    | .error _ =>
      { response := .status 500 "Failed to fetch profile", session := s, calls := [] }
    | .ok _ =>
      match w.base with
      | .failed =>
        { response := .status 500 "Failed to fetch profile", session := s,
          calls := [.baseProfile s.access_token] }
      | .ok profileData =>
        match enrichProfile profileData w with
        | (calls, .error _) =>
          { response := .status 500 "Failed to fetch profile", session := s,
            calls := .baseProfile s.access_token :: calls }
        | (calls, .ok body) =>
          { response := .json body, session := s,
            calls := .baseProfile s.access_token :: calls }

/-! ## Vocabulary of the statements -/

/-- The character list of an account: its `characters` array, empty when the
account has none. -/
def charactersOf (account : JSVal) : List JSVal :=
  match account with
  | .obj fields =>
    match lookup "characters" fields with
    | some (.arr cs) => cs
    | _ => []
  | _ => []

/-- The account list of a profile: its `wow_accounts` array, empty when the
profile has none. -/
def accountsOf (profileData : JSVal) : List JSVal :=
  match profileData with
  | .obj fields =>
    match lookup "wow_accounts" fields with
    | some (.arr accounts) => accounts
    | _ => []
  | _ => []

/-- The character at position `j` of account `i` of a JSON response. -/
def charAt (r : Response) (i j : Nat) : Option JSVal :=
  match r with
  | .json body =>
    match (accountsOf body)[i]? with
    | some account => (charactersOf account)[j]?
    | none => none
  | _ => none

/-- A character whose level is the number 80. -/
def atMaxLevel (char : JSVal) : Bool :=
  match char with
  | .obj fields =>
    match lookup "level" fields with
    | some (.num q) => decide (q = 80)
    | _ => false
  | _ => false

/-- A value other than `undefined` and `null`. -/
def present (v : JSVal) : Bool :=
  match v with
  | .undefined => false
  | .null => false
  | _ => true

/-- A value that can be converted to text: neither an object with an own
`toString` property nor an array that holds such an object. -/
def convertible (v : JSVal) : Bool :=
  match jsToString v with
  | .ok _ => true
  | .error _ => false

/-- The class name that a summary answer gives (`data.character_class?.name`),
`undefined` when the fetch failed or the answer has none. -/
def classNameOf (f : Fetch) : JSVal :=
  match f with
  | .failed => .undefined
  | .ok data =>
    match getProp data "character_class" with
    | .error _ => .undefined
    | .ok cc =>
      match cc with
      | .undefined => .undefined
      | .null => .undefined
      | other =>
        match getProp other "name" with
        | .ok name => name
        | .error _ => .undefined

/-- The realm slug of a character. -/
def slugOf (char : JSVal) : JSVal :=
  match getProp char "realm" with
  | .ok realm =>
    match getProp realm "slug" with
    | .ok slug => slug
    | .error _ => .undefined
  | .error _ => .undefined

/-- Whether the name of a character is a well-formed string. -/
def hasTextName (char : JSVal) : Bool :=
  match getProp char "name" with
  | .ok (.str _) => true
  | _ => false

/-- Whether a character has a realm (other than `null`). -/
def hasRealm (char : JSVal) : Bool :=
  match getProp char "realm" with
  | .ok realm => present realm
  | .error _ => false

/-- The inputs on which no step outside the `try` blocks throws for a
character at the maximum level: it has a realm, its name is a well-formed
string, and the class name of its summary answer can be converted to text
(which matters only when the summary request can be built, that is when the
realm slug can be converted to text). -/
def charResolves (char : JSVal) (f : CharFetches) : Bool :=
  hasRealm char && hasTextName char &&
    (!convertible (slugOf char) || convertible (classNameOf f.summary))

/-- Whether a value has a truthy `length`. -/
def hasTruthyLength (v : JSVal) : Bool :=
  match getProp v "length" with
  | .ok len => truthy len
  | .error _ => false

/-- The inputs on which no step outside the `try` blocks throws for an
account: the account is not `null`; if it is an object whose `characters` is a
non-empty array, no element is `null` and every element at the maximum level
resolves; a `characters` value that is not an array is falsy or has no truthy
`length`. -/
def accountResolves (account : JSVal) (fetches : Nat → CharFetches) : Bool :=
  match account with
  | .undefined => false
  | .null => false
  | .obj fields =>
    match getMember fields "characters" with
    | .arr items =>
      items.isEmpty ||
        (items.all present &&
          (mapFrom (fun j c => charResolves c (fetches j)) 0 (items.filter atMaxLevel)).all id)
    | other => !(truthy other && hasTruthyLength other)
  | _ => true

/-- The inputs on which no step outside the `try` blocks throws for a
profile with the accounts `accounts`. -/
def requestResolves (accounts : List JSVal) (w : World) : Bool :=
  (mapFrom (fun i a => accountResolves a (w.chars i)) 0 accounts).all id

/-- The answers `f` are the answers `g` except that some of the fetches
failed. -/
def FailsMore (f g : CharFetches) : Prop :=
  (f.media = .failed ∨ f.media = g.media) ∧
  (f.ranking = .failed ∨ f.ranking = g.ranking) ∧
  (f.summary = .failed ∨ f.summary = g.summary)

/-- The class that the summary branch derives from the `character_class` of
a response: its `name` when that is truthy, else `Unknown`. -/
def classFrom (cc : JSVal) : JSVal :=
  match cc with
  | .undefined => .str "Unknown"
  | .null => .str "Unknown"
  | other =>
    match getProp other "name" with
    | .ok name => if truthy name then name else .str "Unknown"
    | .error _ => .str "Unknown"

/-- The character that `enrichCharacter` resolves with (the character itself
when it rejects). -/
def enrichedChar (char : JSVal) (f : CharFetches) : JSVal :=
  match (enrichCharacter char f).2 with
  | .ok c => c
  | .error _ => char

/-- The account that `enrichAccount` resolves with (the account itself when
it rejects). -/
def enrichedAccount (account : JSVal) (fetches : Nat → CharFetches) : JSVal :=
  match (enrichAccount account fetches).2 with
  | .ok a => a
  | .error _ => account

/-- The character `char'` is `char` with the five enrichment fields assigned. -/
def IsEnriched (char' char : JSVal) : Prop :=
  ∃ media score cls itemLevel color,
    char' = setProp (setProp (setProp (setProp (setProp char "media" media)
      "mythic_plus_score" score) "class" cls) "itemLevel" itemLevel) "classColor" color

/-- Whether an asset is keyed `k`: it is an object whose `key` is the string `k`. -/
def keyed (k : String) (a : JSVal) : Bool :=
  match a with
  | .obj fields =>
    match lookup "key" fields with
    | some (.str s) => decide (s = k)
    | _ => false
  | _ => false

/-- The `value` of an asset, `undefined` when it has none. -/
def assetValue (a : JSVal) : JSVal :=
  match a with
  | .obj fields =>
    match lookup "value" fields with
    | some v => v
    | none => .undefined
  | _ => .undefined

/-- The avatar URL in the words of the specification: the value of the first
asset keyed `avatar`, else of the first keyed `render`, else of the first keyed
`main`, else of the first asset, else the empty string. -/
def specAvatarUrl (assets : List JSVal) : JSVal :=
  match assets.find? (keyed "avatar") with
  | some a => assetValue a
  | none =>
    match assets.find? (keyed "render") with
    | some a => assetValue a
    | none =>
      match assets.find? (keyed "main") with
      | some a => assetValue a
      | none =>
        match assets with
        | a :: _ => assetValue a
        | [] => .str ""

/-- The base character that ends up at position `j` of account `i`: the
`j`-th character at the maximum level of the `i`-th account. -/
def baseCharAt (accounts : List JSVal) (i j : Nat) : Option JSVal :=
  match accounts[i]? with
  | some a => ((charactersOf a).filter atMaxLevel)[j]?
  | none => none

/-! ## Sample data -/

/-- A session after `/auth/login` issued the state `5f2a9c`. -/
def loggedInSession : Session :=
  (login "client" "5f2a9c" { oauthState := .undefined, access_token := .undefined }).session

/-- A callback query with a state that was never issued. -/
def forgedQuery : Query := { code := .str "abc", state := .str "000000" }

/-- A session with nothing set. -/
def anonymousSession : Session := { oauthState := .undefined, access_token := .undefined }

/-- A provider whose every answer is a failure. -/
def idleWorld : World :=
  { base := .failed, chars := fun _ _ => { media := .failed, ranking := .failed, summary := .failed } }

/-- A callback query that echoes the state of `loggedInSession`. -/
def validQuery : Query := { code := .str "abc", state := .str "5f2a9c" }

/-- A successful answer of the token endpoint. -/
def tokenGrant : Fetch := .ok (.obj [("access_token", .str "T")])

/-- A media answer with a `render` asset before an `avatar` asset. -/
def renderThenAvatar : JSVal :=
  .obj [("assets", .arr [.obj [("key", .str "render"), ("value", .str "R")],
                         .obj [("key", .str "avatar"), ("value", .str "V")]])]

/-- A media answer with a single `render` asset. -/
def renderOnly : JSVal :=
  .obj [("assets", .arr [.obj [("key", .str "render"), ("value", .str "R")]])]

/-- A session that holds a token. -/
def sampleSession : Session := { oauthState := .undefined, access_token := .str "T" }

/-- A character at level 80. -/
def charA : JSVal :=
  .obj [("name", .str "A"), ("realm", .obj [("slug", .str "stormrage")]), ("level", .num 80)]

/-- A character at level 79. -/
def charB : JSVal :=
  .obj [("name", .str "B"), ("realm", .obj [("slug", .str "stormrage")]), ("level", .num 79)]

/-- A base profile with one account that has the characters A and B. -/
def sampleFields : List (String × JSVal) :=
  [("id", .num 7), ("wow_accounts", .arr [.obj [("id", .num 1), ("characters", .arr [charA, charB])]])]

/-- A media answer with a `render` and an `avatar` asset. -/
def sampleMedia : Fetch :=
  .ok (.obj [("assets", .arr [.obj [("key", .str "render"), ("value", .str "R")],
                              .obj [("key", .str "avatar"), ("value", .str "V")]])])

/-- A ranking answer with a rating. -/
def sampleRanking : Fetch :=
  .ok (.obj [("current_mythic_rating", .obj [("rating", .num 2500)])])

/-- A summary answer of a Druid. -/
def sampleSummary : Fetch :=
  .ok (.obj [("character_class", .obj [("name", .str "Druid")]), ("equipped_item_level", .num 619)])

/-- Every request of every character succeeds. -/
def sampleWorld : World :=
  { base := .ok (.obj sampleFields)
    chars := fun _ _ => { media := sampleMedia, ranking := sampleRanking, summary := sampleSummary } }

/-- A second character at level 80. -/
def charC : JSVal :=
  .obj [("name", .str "C"), ("realm", .obj [("slug", .str "proudmoore")]), ("level", .num 80)]

/-- A base profile with one account that has the characters A, B and C. -/
def pairFields : List (String × JSVal) :=
  [("wow_accounts", .arr [.obj [("characters", .arr [charA, charB, charC])]])]

/-- Every request of every character succeeds, for the profile `pairFields`. -/
def pairWorld : World :=
  { base := .ok (.obj pairFields)
    chars := fun _ _ => { media := sampleMedia, ranking := sampleRanking, summary := sampleSummary } }

/-- As `pairWorld`, but the ranking request of the first character fails. -/
def rankingDownWorld : World :=
  { base := .ok (.obj pairFields)
    chars := fun i j =>
      match i, j with
      | 0, 0 => { media := sampleMedia, ranking := .failed, summary := sampleSummary }
      | _, _ => { media := sampleMedia, ranking := sampleRanking, summary := sampleSummary } }

/-- A world whose media answer has an asset without `value` and whose ranking
answer has a `current_mythic_rating` without `rating`. -/
def sparseWorld : World :=
  { base := .ok (.obj sampleFields)
    chars := fun _ _ =>
      { media := .ok (.obj [("assets", .arr [.obj [("key", .str "avatar")]])])
        ranking := .ok (.obj [("current_mythic_rating", .obj [])])
        summary := sampleSummary } }

/-- A world whose summary answer names the class `constructor`. -/
def inheritedNameWorld : World :=
  { base := .ok (.obj sampleFields)
    chars := fun _ _ =>
      { media := sampleMedia
        ranking := sampleRanking
        summary := .ok (.obj [("character_class", .obj [("name", .str "constructor")]),
                              ("equipped_item_level", .num 619)]) } }

/-- A summary answer with an empty class name. -/
def emptyClassSummary : JSVal :=
  .obj [("character_class", .obj [("name", .str "")]), ("equipped_item_level", .num 619)]

/-- A summary answer with class name and an equipped item level of 0. -/
def zeroLevelSummary : JSVal :=
  .obj [("character_class", .obj [("name", .str "Druid")]), ("equipped_item_level", .num 0)]

/-- A character at level 80 without `name`. -/
def namelessChar : JSVal :=
  .obj [("realm", .obj [("slug", .str "stormrage")]), ("level", .num 80)]

/-- A string that consists of the lone surrogate `U+D800`. -/
def loneSurrogate : IllFormedText :=
  { units := [0xD800], inRange := by decide, lone := by decide }

/-- A character at level 80 whose name holds a lone surrogate. -/
def loneNameChar : JSVal :=
  .obj [("name", .illFormed loneSurrogate), ("realm", .obj [("slug", .str "stormrage")]),
        ("level", .num 80)]

/-- A provider that answers every request, for a profile with the single
character `char`. -/
def worldOf (char : JSVal) : World :=
  { base := .ok (.obj [("wow_accounts", .arr [.obj [("characters", .arr [char])]])])
    chars := fun _ _ => { media := sampleMedia, ranking := sampleRanking, summary := sampleSummary } }

/-- A summary answer whose class name is an object with an own `toString`
property. -/
def objectClassSummary : Fetch :=
  .ok (.obj [("character_class", .obj [("name", .obj [("toString", .str "x")])]),
             ("equipped_item_level", .num 619)])

/-- As `sampleWorld`, but the ranking request fails and the summary answer is
`objectClassSummary`. -/
def objectClassWorld : World :=
  { base := .ok (.obj sampleFields)
    chars := fun _ _ =>
      { media := sampleMedia, ranking := .failed, summary := objectClassSummary } }

/-! # Theorems -/

/-! ## Facts about the authentication routes -/

theorem callback_of_rejected (q : Query) (s : Session) (exchange : Fetch)
    (h : (!truthy q.code || !truthy q.state || !strictEq q.state s.oauthState) = true) :
    callback q s exchange =
      { response := .status 400 "Invalid state parameter", session := s, calls := [] } := by
  unfold callback
  rw [if_pos h]

theorem callback_of_accepted (q : Query) (s : Session) (exchange : Fetch)
    (h : (!truthy q.code || !truthy q.state || !strictEq q.state s.oauthState) = false) :
    callback q s exchange =
      match jsToString q.code with
      | .error _ =>
        { response := .status 500 "Authentication failed", session := s, calls := [] }
      | .ok _ =>
        match exchange with
        | .failed =>
          { response := .status 500 "Authentication failed", session := s,
            calls := [.tokenExchange q.code] }
        | .ok data =>
          match getProp data "access_token" with
          | .error _ =>
            { response := .status 500 "Authentication failed", session := s,
              calls := [.tokenExchange q.code] }
          | .ok token =>
            { response := .redirect "/#login",
              session := { s with access_token := token },
              calls := [.tokenExchange q.code] } := by
  unfold callback
  rw [if_neg (by simp [h])]

theorem callback_oauthState (q : Query) (s : Session) (exchange : Fetch) :
    (callback q s exchange).session.oauthState = s.oauthState := by
  unfold callback
  split
  · rfl
  · split
    · rfl
    · split
      · rfl
      · split <;> rfl

theorem callback_calls_subset (q : Query) (s : Session) (exchange : Fetch) :
    (callback q s exchange).calls = [] ∨ (callback q s exchange).calls = [.tokenExchange q.code] := by
  unfold callback
  split
  · left; rfl
  · split
    · left; rfl
    · split
      · right; rfl
      · split <;> (right; rfl)

theorem strictEq_undefined_of_truthy (v : JSVal) (h : truthy v = true) :
    strictEq v .undefined = false := by
  cases v <;> simp_all [truthy, strictEq]

/-- C1: a `/callback` request whose code or state is absent or empty, or whose
state differs from the pending `oauthState` of the session (a session without
pending state included), is answered 400, issues no token-exchange call and
leaves the session as it was; a token exchange is attempted only when code and
state are present and the state equals the pending value, and then it is
attempted whenever the code can be put into the request form. -/
theorem callback_invalid_state (q : Query) (s : Session) (exchange : Fetch) :
    ((truthy q.code = false ∨ truthy q.state = false ∨
        strictEq q.state s.oauthState = false) →
      (callback q s exchange).response = .status 400 "Invalid state parameter" ∧
      (callback q s exchange).calls = [] ∧
      (callback q s exchange).session = s) ∧
    (s.oauthState = .undefined →
      (callback q s exchange).response = .status 400 "Invalid state parameter" ∧
      (callback q s exchange).calls = []) ∧
    (∀ c ∈ (callback q s exchange).calls,
      c = .tokenExchange q.code ∧ truthy q.code = true ∧ truthy q.state = true ∧
      strictEq q.state s.oauthState = true) ∧
    (truthy q.code = true → truthy q.state = true →
      strictEq q.state s.oauthState = true → (∃ t, jsToString q.code = .ok t) →
      (callback q s exchange).calls = [.tokenExchange q.code]) := by
  have rej : (truthy q.code = false ∨ truthy q.state = false ∨
        strictEq q.state s.oauthState = false) →
      callback q s exchange =
        { response := .status 400 "Invalid state parameter", session := s, calls := [] } := by
    intro h
    apply callback_of_rejected
    rcases h with h | h | h <;> simp [h]
  refine ⟨?_, ?_, ?_, ?_⟩
  · intro h
    rw [rej h]
    exact ⟨rfl, rfl, rfl⟩
  · intro hu
    have h : truthy q.code = false ∨ truthy q.state = false ∨
        strictEq q.state s.oauthState = false := by
      cases hs : truthy q.state
      · exact Or.inr (Or.inl rfl)
      · right; right
        rw [hu]
        exact strictEq_undefined_of_truthy _ hs
    rw [rej h]
    exact ⟨rfl, rfl⟩
  · intro c hc
    cases h : (!truthy q.code || !truthy q.state || !strictEq q.state s.oauthState)
    · have hcalls := callback_calls_subset q s exchange
      rcases hcalls with h0 | h1
      · rw [h0] at hc; cases hc
      · rw [h1] at hc
        simp only [List.mem_singleton] at hc
        simp only [Bool.or_eq_false_iff, Bool.not_eq_false'] at h
        exact ⟨hc, h.1.1, h.1.2, h.2⟩
    · rw [callback_of_rejected q s exchange h] at hc
      cases hc
  · intro h1 h2 h3 ⟨t, ht⟩
    rw [callback_of_accepted q s exchange (by simp [h1, h2, h3]), ht]
    cases exchange with
    | failed => rfl
    | ok data =>
      simp only
      split <;> rfl

/-- C1 witness: a callback with a state that was never issued is answered 400
without token exchange and leaves the session alone; a callback that echoes
the pending state reaches the token exchange. -/
theorem callback_invalid_state_witness :
    ((callback forgedQuery loggedInSession tokenGrant).response
        = .status 400 "Invalid state parameter" ∧
      (callback forgedQuery loggedInSession tokenGrant).calls = [] ∧
      (callback forgedQuery loggedInSession tokenGrant).session = loggedInSession) ∧
    (callback validQuery loggedInSession tokenGrant).calls
      = [.tokenExchange validQuery.code] :=
  ⟨(callback_invalid_state forgedQuery loggedInSession tokenGrant).1
      (Or.inr (Or.inr (by decide))),
   (callback_invalid_state validQuery loggedInSession tokenGrant).2.2.2
      (by decide) (by decide) (by decide) ⟨_, rfl⟩⟩

theorem profile_of_no_token (s : Session) (w : World) (h : truthy s.access_token = false) :
    profile s w = { response := .status 401 "Unauthorized", session := s, calls := [] } := by
  unfold profile
  rw [if_pos (by simp [h])]

theorem profile_of_token (s : Session) (w : World) (h : truthy s.access_token = true) :
    profile s w =
      match jsToString s.access_token with
      | .error _ =>
        { response := .status 500 "Failed to fetch profile", session := s, calls := [] }
      | .ok _ =>
        match w.base with
        | .failed =>
          { response := .status 500 "Failed to fetch profile", session := s,
            calls := [.baseProfile s.access_token] }
        | .ok profileData =>
          match enrichProfile profileData w with
          | (calls, .error _) =>
            { response := .status 500 "Failed to fetch profile", session := s,
              calls := .baseProfile s.access_token :: calls }
          | (calls, .ok body) =>
            { response := .json body, session := s,
              calls := .baseProfile s.access_token :: calls } := by
  unfold profile
  rw [if_neg (by simp [h])]

/-- C2: when the session holds no access token (the field is unset, or holds a
falsy value such as the empty string) `/api/profile` answers 401 Unauthorized
and issues no call at all; when the session holds an access token the answer
is never 401. -/
theorem profile_token_gate (s : Session) (w : World) :
    (truthy s.access_token = false →
      (profile s w).response = .status 401 "Unauthorized" ∧ (profile s w).calls = []) ∧
    (s.access_token = .undefined →
      (profile s w).response = .status 401 "Unauthorized" ∧ (profile s w).calls = []) ∧
    (truthy s.access_token = true →
      ∀ body, (profile s w).response ≠ .status 401 body) := by
  refine ⟨?_, ?_, ?_⟩
  · intro h
    rw [profile_of_no_token s w h]
    exact ⟨rfl, rfl⟩
  · intro h
    rw [profile_of_no_token s w (by rw [h]; rfl)]
    exact ⟨rfl, rfl⟩
  · intro h body
    rw [profile_of_token s w h]
    split
    · intro hc; cases hc
    · split
      · intro hc; cases hc
      · split
        · intro hc; cases hc
        · intro hc; cases hc

/-- C2 witness: a session with nothing set is answered 401 without any call;
a session that holds a token is not answered 401. -/
theorem profile_token_gate_witness :
    ((profile anonymousSession idleWorld).response = .status 401 "Unauthorized" ∧
      (profile anonymousSession idleWorld).calls = []) ∧
    (∀ body, (profile sampleSession idleWorld).response ≠ .status 401 body) :=
  ⟨(profile_token_gate anonymousSession idleWorld).1 (by decide),
   (profile_token_gate sampleSession idleWorld).2.2 (by decide)⟩

/-- C8: when a `/callback` request passes the state validation and the token
exchange fails, the answer is 500 and the session is left as it was; more
generally no 500 answer of `/callback` changes the session.  A session without
token is still without token, and `/api/profile` on it answers 401. -/
theorem callback_exchange_failed (q : Query) (s : Session)
    (hcode : truthy q.code = true) (hstate : truthy q.state = true)
    (heq : strictEq q.state s.oauthState = true) :
    (callback q s .failed).response = .status 500 "Authentication failed" ∧
    (callback q s .failed).session = s ∧
    (∀ exchange body, (callback q s exchange).response = .status 500 body →
      (callback q s exchange).session = s) ∧
    (s.access_token = .undefined →
      (callback q s .failed).session.access_token = .undefined ∧
      ∀ w, (profile (callback q s .failed).session w).response
        = .status 401 "Unauthorized") := by
  have hacc : (!truthy q.code || !truthy q.state || !strictEq q.state s.oauthState) = false := by
    simp [hcode, hstate, heq]
  have hfail : (callback q s .failed).response = .status 500 "Authentication failed" ∧
      (callback q s .failed).session = s := by
    rw [callback_of_accepted q s .failed hacc]
    split
    · exact ⟨rfl, rfl⟩
    · exact ⟨rfl, rfl⟩
  refine ⟨hfail.1, hfail.2, ?_, ?_⟩
  · intro exchange body
    rw [callback_of_accepted q s exchange hacc]
    split
    · intro _; rfl
    · split
      · intro _; rfl
      · split
        · intro _; rfl
        · intro hc; cases hc
  · intro hu
    rw [hfail.2]
    refine ⟨hu, fun w => ?_⟩
    rw [profile_of_no_token s w (by rw [hu]; rfl)]

/-- C8 witness: the valid callback of `loggedInSession` with a failing token
exchange is answered 500 and leaves the session alone. -/
theorem callback_exchange_failed_witness :
    (callback validQuery loggedInSession .failed).response
      = .status 500 "Authentication failed" ∧
    (callback validQuery loggedInSession .failed).session = loggedInSession :=
  ⟨(callback_exchange_failed validQuery loggedInSession (by decide) (by decide) (by decide)).1,
   (callback_exchange_failed validQuery loggedInSession (by decide) (by decide) (by decide)).2.1⟩

theorem login_oauthState (clientId fresh : String) (s : Session) :
    (login clientId fresh s).session.oauthState = .str fresh := rfl

theorem strictEq_str_eq (v : JSVal) (t : String) (h : strictEq v (.str t) = true) :
    v = .str t := by
  cases v <;> simp_all [strictEq]

/-- C7 (as amended): `/callback` never consumes the pending `oauthState`: after
every request, whatever its outcome, the pending state of the session is the
one it had before, so a replay of a callback that reached the token exchange
reaches it again.  Only `/auth/login` replaces the pending state; after a login
that issued another state the old callback is answered 400 and issues no
call. -/
theorem callback_keeps_pending_state (q : Query) (s : Session) (exchange next : Fetch) :
    (callback q s exchange).session.oauthState = s.oauthState ∧
    ((callback q s exchange).calls ≠ [] →
      (callback q (callback q s exchange).session next).calls = [.tokenExchange q.code]) ∧
    (∀ clientId fresh, q.state ≠ .str fresh →
      (callback q (login clientId fresh (callback q s exchange).session).session next).response
        = .status 400 "Invalid state parameter" ∧
      (callback q (login clientId fresh (callback q s exchange).session).session next).calls
        = []) := by
  refine ⟨callback_oauthState q s exchange, ?_, ?_⟩
  · intro hne
    cases h : (!truthy q.code || !truthy q.state || !strictEq q.state s.oauthState)
    · have h2 : (!truthy q.code || !truthy q.state ||
          !strictEq q.state (callback q s exchange).session.oauthState) = false := by
        rw [callback_oauthState]; exact h
      cases hk : jsToString q.code with
      | error e =>
        rw [callback_of_accepted q s exchange h, hk] at hne
        exact absurd rfl hne
      | ok t =>
        rw [callback_of_accepted q _ next h2, hk]
        cases next with
        | failed => rfl
        | ok data =>
          simp only
          split <;> rfl
    · rw [callback_of_rejected q s exchange h] at hne
      exact absurd rfl hne
  · intro clientId fresh hne
    have hrej : (!truthy q.code || !truthy q.state ||
        !strictEq q.state (login clientId fresh (callback q s exchange).session).session.oauthState)
          = true := by
      rw [login_oauthState]
      cases hs : strictEq q.state (.str fresh)
      · simp
      · exact absurd (strictEq_str_eq _ _ hs) hne
    rw [callback_of_rejected q _ next hrej]
    exact ⟨rfl, rfl⟩

/-- C7 witness: the replay of a callback that was accepted reaches the
token exchange again. -/
theorem callback_keeps_pending_state_witness :
    (callback validQuery (callback validQuery loggedInSession tokenGrant).session tokenGrant).calls
      = [.tokenExchange validQuery.code] :=
  (callback_keeps_pending_state validQuery loggedInSession tokenGrant tokenGrant).2.1
    (by intro h; cases h)

/-- C7 counterexample: after a login that issued `5f2a9c`, the callback that
echoes it is accepted, and its replay against the session it left is accepted
again with a second token exchange; the same holds after a first callback
whose token exchange failed. -/
theorem callback_replay_accepted :
    (callback validQuery loggedInSession tokenGrant).response = .redirect "/#login" ∧
    (callback validQuery (callback validQuery loggedInSession tokenGrant).session
        tokenGrant).response = .redirect "/#login" ∧
    (callback validQuery (callback validQuery loggedInSession tokenGrant).session
        tokenGrant).calls = [.tokenExchange (.str "abc")] ∧
    (callback validQuery (callback validQuery loggedInSession .failed).session
        tokenGrant).calls = [.tokenExchange (.str "abc")] :=
  ⟨rfl, rfl, rfl, rfl⟩

theorem getMember_key (fields : List (String × JSVal)) (k : String) :
    strictEq (getMember fields "key") (.str k) = keyed k (.obj fields) := by
  simp only [getMember, keyed]
  cases h : lookup "key" fields with
  | none => simp [objectPrototype, objectPrototypeNames, strictEq]
  | some v => cases v <;> simp [strictEq]


theorem getMember_value (fields : List (String × JSVal)) :
    getMember fields "value" = assetValue (.obj fields) := by
  simp only [getMember, assetValue]
  cases h : lookup "value" fields with
  | none => simp [objectPrototype, objectPrototypeNames]
  | some v => rfl

theorem findKey_objects (k : String) (assets : List JSVal)
    (hobj : ∀ a ∈ assets, ∃ fields, a = .obj fields) :
    findKey k assets = .ok ((assets.find? (keyed k)).getD .undefined) := by
  induction assets with
  | nil => rfl
  | cons a rest ih =>
    obtain ⟨fields, rfl⟩ := hobj a (List.mem_cons_self _ _)
    have ih2 := ih (fun b hb => hobj b (List.mem_cons_of_mem _ hb))
    simp only [findKey, getProp, getMember_key, List.find?_cons]
    cases hk : keyed k (.obj fields)
    · simpa using ih2
    · simp

theorem truthy_find (k : String) (assets : List JSVal)
    (hobj : ∀ a ∈ assets, ∃ fields, a = .obj fields) :
    truthy ((assets.find? (keyed k)).getD .undefined) = (assets.find? (keyed k)).isSome := by
  cases h : assets.find? (keyed k) with
  | none => rfl
  | some a =>
    obtain ⟨fields, rfl⟩ := hobj a (List.mem_of_find?_eq_some h)
    rfl

theorem mediaOf_objects (data : JSVal) (assets : List JSVal)
    (hassets : getProp data "assets" = .ok (.arr assets))
    (hobj : ∀ a ∈ assets, ∃ fields, a = .obj fields) :
    mediaOf data = .ok (.obj [("avatar_url", specAvatarUrl assets)]) := by
  unfold mediaOf
  rw [hassets]
  simp only [bind, Except.bind, truthy, if_true, avatarAsset, callFind, findKey_objects _ _ hobj,
    truthy_find _ _ hobj, pure, Except.pure, specAvatarUrl]
  cases h1 : assets.find? (keyed "avatar") with
  | some a =>
    obtain ⟨fields, rfl⟩ := hobj a (List.mem_of_find?_eq_some h1)
    simp [truthy, getProp, getMember_value]
  | none =>
    cases h2 : assets.find? (keyed "render") with
    | some a =>
      obtain ⟨fields, rfl⟩ := hobj a (List.mem_of_find?_eq_some h2)
      simp [truthy, getProp, getMember_value]
    | none =>
      cases h3 : assets.find? (keyed "main") with
      | some a =>
        obtain ⟨fields, rfl⟩ := hobj a (List.mem_of_find?_eq_some h3)
        simp [truthy, getProp, getMember_value]
      | none =>
        cases assets with
        | nil => simp [firstItem, truthy]
        | cons a rest =>
          obtain ⟨fields, rfl⟩ := hobj a (List.mem_cons_self _ _)
          simp [firstItem, truthy, getProp, getMember_value]

theorem mediaOf_missing (data v : JSVal) (hassets : getProp data "assets" = .ok v)
    (hv : truthy v = false) :
    mediaOf data = .ok (.obj [("avatar_url", .str "")]) := by
  unfold mediaOf
  rw [hassets]
  simp only [bind, Except.bind, hv]
  rfl

theorem attempt_ok (slug data : JSVal) (hslug : ∃ t, jsToString slug = .ok t) :
    attempt slug (.ok data) = some data := by
  obtain ⟨t, ht⟩ := hslug
  simp [attempt, ht]

/-- C4: after a successful media fetch whose asset list holds asset objects,
the avatar URL is the value of the first asset keyed `avatar` if there is one,
else of the first keyed `render`, else of the first keyed `main`, else of the
first asset; it is the empty string when the list is empty or missing.  An
asset keyed `avatar` wins wherever it stands in the list. -/
theorem media_avatar_priority (slug data : JSVal) (hslug : ∃ t, jsToString slug = .ok t) :
    (∀ assets, getProp data "assets" = .ok (.arr assets) →
      (∀ a ∈ assets, ∃ fields, a = .obj fields) →
      mediaBranch slug (.ok data) = .obj [("avatar_url", specAvatarUrl assets)] ∧
      ((∃ a ∈ assets, keyed "avatar" a = true) →
        ∃ a ∈ assets, keyed "avatar" a = true ∧
          mediaBranch slug (.ok data) = .obj [("avatar_url", assetValue a)])) ∧
    (getProp data "assets" = .ok (.arr []) →
      mediaBranch slug (.ok data) = .obj [("avatar_url", .str "")]) ∧
    (∀ v, getProp data "assets" = .ok v → truthy v = false →
      mediaBranch slug (.ok data) = .obj [("avatar_url", .str "")]) := by
  refine ⟨?_, ?_, ?_⟩
  · intro assets hassets hobj
    have hm : mediaBranch slug (.ok data) = .obj [("avatar_url", specAvatarUrl assets)] := by
      unfold mediaBranch
      rw [attempt_ok slug data hslug]
      simp only [mediaOf_objects data assets hassets hobj]
    refine ⟨hm, ?_⟩
    rintro ⟨a, ha, hk⟩
    cases hf : assets.find? (keyed "avatar") with
    | none =>
      have := List.find?_eq_none.mp hf a ha
      simp [hk] at this
    | some b =>
      refine ⟨b, List.mem_of_find?_eq_some hf, List.find?_some hf, ?_⟩
      rw [hm, specAvatarUrl.eq_def, hf]
  · intro hassets
    unfold mediaBranch
    rw [attempt_ok slug data hslug]
    simp only [mediaOf_objects data [] hassets (by simp)]
    rfl
  · intro v hassets hv
    unfold mediaBranch
    rw [attempt_ok slug data hslug]
    simp only [mediaOf_missing data v hassets hv]

/-- C4 witness: a `render` asset followed by an `avatar` asset gives the
value of the `avatar` asset; a single `render` asset gives its value. -/
theorem media_avatar_priority_witness :
    mediaBranch (.str "stormrage") (.ok renderThenAvatar) = .obj [("avatar_url", .str "V")] ∧
    mediaBranch (.str "stormrage") (.ok renderOnly) = .obj [("avatar_url", .str "R")] :=
  ⟨((media_avatar_priority (.str "stormrage") renderThenAvatar ⟨_, rfl⟩).1
      [.obj [("key", .str "render"), ("value", .str "R")],
       .obj [("key", .str "avatar"), ("value", .str "V")]] rfl
      (by intro a ha; simp at ha; rcases ha with rfl | rfl <;> exact ⟨_, rfl⟩)).1,
   ((media_avatar_priority (.str "stormrage") renderOnly ⟨_, rfl⟩).1
      [.obj [("key", .str "render"), ("value", .str "R")]] rfl
      (by intro a ha; simp at ha; subst ha; exact ⟨_, rfl⟩)).1⟩

/-! ## Property lists -/

theorem lookup_setField_same (k : String) (v : JSVal) (fields : List (String × JSVal)) :
    lookup k (setField k v fields) = some v := by
  induction fields with
  | nil => simp [setField, lookup]
  | cons p rest ih =>
    obtain ⟨k', x⟩ := p
    by_cases h : k' = k
    · simp [setField, lookup, h]
    · simp [setField, lookup, h, ih]

theorem lookup_setField_ne (k k' : String) (v : JSVal) (fields : List (String × JSVal))
    (hne : k ≠ k') : lookup k' (setField k v fields) = lookup k' fields := by
  induction fields with
  | nil => simp [setField, lookup, hne]
  | cons p rest ih =>
    obtain ⟨k0, x⟩ := p
    by_cases h : k0 = k
    · subst h
      simp [setField, lookup, hne]
    · by_cases h2 : k0 = k'
      · subst h2
        simp [setField, lookup, h]
      · simp [setField, lookup, h, h2, ih]

theorem setField_setField (k : String) (u v : JSVal) (fields : List (String × JSVal)) :
    setField k v (setField k u fields) = setField k v fields := by
  induction fields with
  | nil => simp [setField]
  | cons p rest ih =>
    obtain ⟨k', x⟩ := p
    by_cases h : k' = k
    · simp [setField, h]
    · simp [setField, h, ih]

theorem getMember_setField_same (k : String) (v : JSVal) (fields : List (String × JSVal)) :
    getMember (setField k v fields) k = v := by
  simp [getMember, lookup_setField_same]

theorem getMember_setField_ne (k k' : String) (v : JSVal) (fields : List (String × JSVal))
    (hne : k ≠ k') : getMember (setField k v fields) k' = getMember fields k' := by
  simp [getMember, lookup_setField_ne k k' v fields hne]

/-! ## Texts -/

theorem classColorOf_ok (cls : JSVal) (h : ∃ t, jsToString cls = .ok t) :
    ∃ color, classColorOf cls = .ok color := by
  obtain ⟨t, ht⟩ := h
  unfold classColorOf
  rw [ht]
  split <;> exact ⟨_, rfl⟩

/-! ## Ranking, summary and class colour -/

theorem getProp_total (v : JSVal) (k : String) (x : JSVal) (h : getProp v k = .ok x)
    (k' : String) : ∃ y, getProp v k' = .ok y := by
  cases v with
  | undefined => cases h
  | null => cases h
  | obj fields => exact ⟨_, rfl⟩
  | arr l => simp only [getProp]; split <;> exact ⟨_, rfl⟩
  | str s => simp only [getProp]; split <;> exact ⟨_, rfl⟩
  | illFormed t => simp only [getProp]; split <;> exact ⟨_, rfl⟩
  | bool b => exact ⟨_, rfl⟩
  | num q => exact ⟨_, rfl⟩
  | builtin n => exact ⟨_, rfl⟩

theorem summaryOf_eq (data cc il : JSVal)
    (hcc : getProp data "character_class" = .ok cc)
    (hil : getProp data "equipped_item_level" = .ok il) :
    summaryOf data = .ok (classFrom cc, if truthy il then il else .str "N/A") := by
  unfold summaryOf
  rw [hcc, hil]
  cases cc with
  | undefined => simp [bind, Except.bind, pure, Except.pure, truthy, classFrom]
  | null => simp [bind, Except.bind, pure, Except.pure, truthy, classFrom]
  | obj fields => simp [bind, Except.bind, pure, Except.pure, getProp, classFrom]
  | arr l => simp [bind, Except.bind, pure, Except.pure, getProp, truthy, classFrom]
  | str s => simp [bind, Except.bind, pure, Except.pure, getProp, truthy, classFrom]
  | illFormed t => simp [bind, Except.bind, pure, Except.pure, getProp, truthy, classFrom]
  | bool b => simp [bind, Except.bind, pure, Except.pure, getProp, truthy, classFrom]
  | num q => simp [bind, Except.bind, pure, Except.pure, getProp, truthy, classFrom]
  | builtin n => simp [bind, Except.bind, pure, Except.pure, getProp, truthy, classFrom]

theorem lookup_mem (k : String) (v : JSVal) (fields : List (String × JSVal))
    (h : lookup k fields = some v) : (k, v) ∈ fields := by
  induction fields with
  | nil => cases h
  | cons p rest ih =>
    obtain ⟨k', x⟩ := p
    simp only [lookup] at h
    split at h
    · rename_i hk
      simp only [Option.some.injEq] at h
      subst hk; subst h
      exact List.mem_cons_self _ _
    · exact List.mem_cons_of_mem _ (ih h)

theorem classColors_truthy : classColors.all (fun p => truthy p.2) = true := by decide

/-- C10 (as amended): after a successful ranking fetch the score is the
`rating` of `current_mythic_rating` when the response carries a rating, and
N/A when it carries no `current_mythic_rating`; after a successful summary
fetch the class is the class name when that is present and not empty, else
Unknown, and the item level is the equipped item level when that is present
and not zero, else N/A. -/
theorem ranking_summary_values (slug data : JSVal) (hslug : ∃ t, jsToString slug = .ok t) :
    (∀ cmr r, getProp data "current_mythic_rating" = .ok cmr → truthy cmr = true →
      getProp cmr "rating" = .ok r → r ≠ .undefined →
      rankingBranch slug (.ok data) = r) ∧
    (∀ cmr, getProp data "current_mythic_rating" = .ok cmr → truthy cmr = false →
      rankingBranch slug (.ok data) = .str "N/A") ∧
    (∀ cc name, getProp data "character_class" = .ok cc → getProp cc "name" = .ok name →
      ((summaryBranch slug (.ok data)).1 = if truthy name then name else .str "Unknown")) ∧
    (∀ cc, getProp data "character_class" = .ok cc → (cc = .undefined ∨ cc = .null) →
      (summaryBranch slug (.ok data)).1 = .str "Unknown") ∧
    (∀ il, getProp data "equipped_item_level" = .ok il →
      ((summaryBranch slug (.ok data)).2 = if truthy il then il else .str "N/A")) ∧
    (∀ q, getProp data "equipped_item_level" = .ok (.num q) → q ≠ 0 →
      (summaryBranch slug (.ok data)).2 = .num q) := by
  have hil : ∀ il, getProp data "equipped_item_level" = .ok il →
      ((summaryBranch slug (.ok data)).2 = if truthy il then il else .str "N/A") := by
    intro il hil
    obtain ⟨cc, hcc⟩ := getProp_total data _ il hil "character_class"
    unfold summaryBranch
    rw [attempt_ok slug data hslug]
    simp only [summaryOf_eq data cc il hcc hil]
  refine ⟨?_, ?_, ?_, ?_, hil, ?_⟩
  · intro cmr r h1 h2 h3 _
    unfold rankingBranch
    rw [attempt_ok slug data hslug]
    simp [ratingOf, h1, h2, h3, bind, Except.bind]
  · intro cmr h1 h2
    unfold rankingBranch
    rw [attempt_ok slug data hslug]
    simp [ratingOf, h1, h2, bind, Except.bind, pure, Except.pure]
  · intro cc name hcc hname
    obtain ⟨il, hil⟩ := getProp_total data _ cc hcc "equipped_item_level"
    unfold summaryBranch
    rw [attempt_ok slug data hslug]
    simp only [summaryOf_eq data cc il hcc hil]
    cases cc with
    | undefined => cases hname
    | null => cases hname
    | _ => simp only [classFrom, hname]
  · intro cc hcc hnull
    obtain ⟨il, hil⟩ := getProp_total data _ cc hcc "equipped_item_level"
    unfold summaryBranch
    rw [attempt_ok slug data hslug]
    simp only [summaryOf_eq data cc il hcc hil]
    rcases hnull with rfl | rfl <;> rfl
  · intro q hq hne
    rw [hil _ hq]
    simp [truthy, hne]

/-- C10 witness: a rating of 2500 is the score, and the class name Druid is
the class. -/
theorem ranking_summary_values_witness :
    rankingBranch (.str "stormrage")
        (.ok (.obj [("current_mythic_rating", .obj [("rating", .num 2500)])])) = .num 2500 ∧
    (summaryBranch (.str "stormrage") (.ok zeroLevelSummary)).1 = .str "Druid" :=
  ⟨(ranking_summary_values (.str "stormrage")
      (.obj [("current_mythic_rating", .obj [("rating", .num 2500)])]) ⟨_, rfl⟩).1
      (.obj [("rating", .num 2500)]) (.num 2500) rfl rfl rfl (by intro h; cases h),
   (ranking_summary_values (.str "stormrage") zeroLevelSummary ⟨_, rfl⟩).2.2.1
      (.obj [("name", .str "Druid")]) (.str "Druid") rfl rfl⟩

/-- C10 counterexample: a summary response whose equipped item level is the
number 0 gives the item level N/A, not 0; a summary response whose class name
is the empty string gives the class Unknown. -/
theorem item_level_zero_defaulted :
    getProp zeroLevelSummary "equipped_item_level" = .ok (.num 0) ∧
    (summaryBranch (.str "stormrage") (.ok zeroLevelSummary)).2 = .str "N/A" ∧
    (summaryBranch (.str "stormrage") (.ok zeroLevelSummary)).2 ≠ .num 0 ∧
    (summaryBranch (.str "stormrage") (.ok emptyClassSummary)).1 = .str "Unknown" :=
  ⟨rfl, rfl, (by intro h; cases h), rfl⟩

/-- C6: with a media asset that has no `value` and a `current_mythic_rating`
that has no `rating`, the character of the response has its avatar URL and
its score `undefined`: both fields are left unset. -/
theorem enrichment_fields_unset :
    (profile sampleSession sparseWorld).response =
      .json (.obj [("id", .num 7), ("wow_accounts", .arr [.obj [("id", .num 1),
        ("characters", .arr [.obj [("name", .str "A"),
          ("realm", .obj [("slug", .str "stormrage")]), ("level", .num 80),
          ("media", .obj [("avatar_url", .undefined)]), ("mythic_plus_score", .undefined),
          ("class", .str "Druid"), ("itemLevel", .num 619),
          ("classColor", .str "#FF7D0A")]])]])]) ∧
    rankingBranch (.str "stormrage") (.ok (.obj [("current_mythic_rating", .obj [])]))
      = .undefined ∧
    mediaBranch (.str "stormrage") (.ok (.obj [("assets", .arr [.obj [("key", .str "avatar")]])]))
      = .obj [("avatar_url", .undefined)] :=
  ⟨rfl, rfl, rfl⟩

/-- The class colour of a class name that is a string: the colour of the table
for its twelve names, white for every other name that `Object.prototype` does
not have, and a built-in object for a name that `Object.prototype` has. -/
theorem classColorOf_str (name : String) :
    classColorOf (.str name) = .ok
      (match lookup name classColors with
       | some color => color
       | none => if name ∈ objectPrototypeNames then .builtin ("Object.prototype." ++ name)
                 else .str "#FFFFFF") := by
  by_cases hn : name = ""
  · subst hn; rfl
  · have ht : truthy (.str name) = true := by simp [truthy, hn]
    unfold classColorOf
    rw [if_pos ht]
    simp only [jsToString, getMember]
    cases hl : lookup name classColors with
    | some color =>
      have : truthy color = true :=
        List.all_eq_true.mp classColors_truthy _ (lookup_mem name color classColors hl)
      simp [this]
    | none =>
      simp only [objectPrototype]
      by_cases hp : name ∈ objectPrototypeNames
      · simp [hp, truthy]
      · simp [hp, truthy]

/-- C9: the class colour of the class name `constructor` is not a colour
string but the built-in object that `Object.prototype` has under that name,
while `Druid` gives `#FF7D0A` and `Unknown` gives `#FFFFFF`. -/
theorem class_color_inherited_name :
    classColorOf (.str "constructor") = .ok (.builtin "Object.prototype.constructor") ∧
    (profile sampleSession inheritedNameWorld).response =
      .json (.obj [("id", .num 7), ("wow_accounts", .arr [.obj [("id", .num 1),
        ("characters", .arr [.obj [("name", .str "A"),
          ("realm", .obj [("slug", .str "stormrage")]), ("level", .num 80),
          ("media", .obj [("avatar_url", .str "V")]), ("mythic_plus_score", .num 2500),
          ("class", .str "constructor"), ("itemLevel", .num 619),
          ("classColor", .builtin "Object.prototype.constructor")]])]])]) ∧
    classColorOf (.str "Druid") = .ok (.str "#FF7D0A") ∧
    classColorOf (.str "Unknown") = .ok (.str "#FFFFFF") ∧
    classColorOf .undefined = .ok (.str "#FFFFFF") :=
  ⟨rfl, rfl, rfl, rfl, rfl⟩

/-! ## Conversion to text and the class of a character -/

theorem convertible_ok (v : JSVal) (h : convertible v = true) : ∃ t, jsToString v = .ok t := by
  unfold convertible at h
  split at h
  · exact ⟨_, by assumption⟩
  · cases h

theorem convertible_error (v : JSVal) (h : convertible v = false) :
    ∃ e, jsToString v = .error e := by
  unfold convertible at h
  split at h
  · cases h
  · exact ⟨_, by assumption⟩

theorem convertible_of_falsy (v : JSVal) (h : truthy v = false) : convertible v = true := by
  cases v with
  | bool b => cases b <;> rfl
  | arr l => cases h
  | obj f => cases h
  | _ => rfl

theorem classColorOf_convertible (cls : JSVal) (h : convertible cls = true) :
    ∃ color, classColorOf cls = .ok color :=
  classColorOf_ok cls (convertible_ok cls h)

theorem classColorOf_not_convertible (cls : JSVal) (h : convertible cls = false) :
    ∃ e, classColorOf cls = .error e := by
  obtain ⟨e, he⟩ := convertible_error cls h
  have ht : truthy cls = true := by
    cases ht : truthy cls
    · rw [convertible_of_falsy cls ht] at h; cases h
    · rfl
  unfold classColorOf
  rw [if_pos ht, he]
  exact ⟨e, rfl⟩

theorem attempt_failed (slug : JSVal) : attempt slug .failed = none := by
  unfold attempt
  split
  · rename_i h; cases h
  · rfl

theorem attempt_eq (slug data : JSVal) :
    attempt slug (.ok data) = if convertible slug then some data else none := by
  unfold attempt convertible
  cases jsToString slug <;> rfl

theorem getProp_present (v : JSVal) (k : String) (h : present v = true) :
    ∃ x, getProp v k = .ok x := by
  cases v with
  | undefined => cases h
  | null => cases h
  | obj fields => exact ⟨_, rfl⟩
  | arr l => simp only [getProp]; split <;> exact ⟨_, rfl⟩
  | str s => simp only [getProp]; split <;> exact ⟨_, rfl⟩
  | illFormed t => simp only [getProp]; split <;> exact ⟨_, rfl⟩
  | bool b => exact ⟨_, rfl⟩
  | num q => exact ⟨_, rfl⟩
  | builtin n => exact ⟨_, rfl⟩

theorem getProp_absent (v : JSVal) (k : String) (h : present v = false) :
    getProp v k = .error .typeError := by
  cases v <;> first | rfl | cases h

theorem classFrom_eq (data cc : JSVal) (hcc : getProp data "character_class" = .ok cc) :
    classFrom cc = if truthy (classNameOf (.ok data)) then classNameOf (.ok data)
      else .str "Unknown" := by
  simp only [classNameOf, hcc]
  cases cc with
  | undefined => rfl
  | null => rfl
  | obj fields => simp [classFrom, getProp]
  | arr l => simp [classFrom, getProp, truthy]
  | str s => simp [classFrom, getProp, truthy]
  | illFormed t => simp [classFrom, getProp, truthy]
  | bool b => simp [classFrom, getProp, truthy]
  | num q => simp [classFrom, getProp, truthy]
  | builtin n => simp [classFrom, getProp, truthy]

theorem summaryBranch_class (slug : JSVal) (f : Fetch) :
    (summaryBranch slug f).1 =
      if (convertible slug && truthy (classNameOf f)) = true then classNameOf f
      else .str "Unknown" := by
  cases f with
  | failed =>
    unfold summaryBranch
    rw [attempt_failed]
    simp [classNameOf, truthy]
  | ok data =>
    unfold summaryBranch
    rw [attempt_eq]
    cases hs : convertible slug
    · simp
    · simp only [if_true, Bool.true_and]
      by_cases hp : present data = true
      · obtain ⟨cc, hcc⟩ := getProp_present data "character_class" hp
        obtain ⟨il, hil⟩ := getProp_present data "equipped_item_level" hp
        simp only [summaryOf_eq data cc il hcc hil, classFrom_eq data cc hcc]
      · have hp' : present data = false := by simpa using hp
        have h1 : summaryOf data = .error .typeError := by
          simp [summaryOf, getProp_absent data _ hp', bind, Except.bind]
        simp [h1, classNameOf, getProp_absent data _ hp', truthy]

theorem class_convertible (slug : JSVal) (f : Fetch) :
    convertible (summaryBranch slug f).1 = (!convertible slug || convertible (classNameOf f)) := by
  rw [summaryBranch_class]
  cases hs : convertible slug
  · simp; rfl
  · cases ht : truthy (classNameOf f)
    · simp [convertible_of_falsy _ ht]; rfl
    · simp

/-! ## One character -/

theorem urlParts_obj (fields : List (String × JSVal)) :
    urlParts (.obj fields) =
      match getProp (getMember fields "realm") "slug" with
      | .error e => .error e
      | .ok slug =>
        match nameOf (getMember fields "name") with
        | .error e => .error e
        | .ok n => .ok (slug, n) := by
  have h1 : getProp (.obj fields) "realm" = .ok (getMember fields "realm") := rfl
  have h2 : getProp (.obj fields) "name" = .ok (getMember fields "name") := rfl
  unfold urlParts
  simp only [bind, Except.bind, pure, Except.pure, h1, h2]
  generalize getProp (getMember fields "realm") "slug" = r
  cases r with
  | error e => rfl
  | ok slug =>
    simp only
    cases nameOf (getMember fields "name") <;> rfl

theorem slugOf_obj (fields : List (String × JSVal)) (slug : JSVal)
    (h : getProp (getMember fields "realm") "slug" = .ok slug) :
    slugOf (.obj fields) = slug := by
  have h1 : getProp (.obj fields) "realm" = .ok (getMember fields "realm") := rfl
  unfold slugOf
  rw [h1]
  simp only [h]

theorem charResolves_shape (c : JSVal) (f : CharFetches) (h : charResolves c f = true) :
    ∃ fields name, c = .obj fields ∧ getMember fields "name" = .str name ∧
      (∃ slug, getProp (getMember fields "realm") "slug" = .ok slug ∧ slugOf c = slug) ∧
      convertible (summaryBranch (slugOf c) f.summary).1 = true := by
  simp only [charResolves, Bool.and_eq_true] at h
  obtain ⟨⟨hr, hn⟩, hcl⟩ := h
  rw [← class_convertible] at hcl
  cases c with
  | obj fields =>
    simp only [hasTextName, getProp] at hn
    simp only [hasRealm, getProp] at hr
    obtain ⟨slug, hslug⟩ := getProp_present (getMember fields "realm") "slug" hr
    cases hname : getMember fields "name" with
    | str name =>
      exact ⟨fields, name, rfl, hname, ⟨slug, hslug, slugOf_obj fields slug hslug⟩, hcl⟩
    | _ => simp [hname] at hn
  | undefined => simp [hasTextName, getProp] at hn
  | null => simp [hasTextName, getProp] at hn
  | bool b => simp [hasTextName, getProp] at hn
  | num q => simp [hasTextName, getProp] at hn
  | builtin n => simp [hasTextName, getProp] at hn
  | arr l => simp [hasTextName, getProp] at hn
  | str s => simp [hasTextName, getProp] at hn
  | illFormed t => simp [hasTextName, getProp] at hn

theorem enrichCharacter_resolves (c : JSVal) (f : CharFetches) (h : charResolves c f = true) :
    ∃ color, classColorOf (summaryBranch (slugOf c) f.summary).1 = .ok color ∧
      (enrichCharacter c f).2 = .ok (setProp (setProp (setProp (setProp (setProp c
        "media" (mediaBranch (slugOf c) f.media))
        "mythic_plus_score" (rankingBranch (slugOf c) f.ranking))
        "class" (summaryBranch (slugOf c) f.summary).1)
        "itemLevel" (summaryBranch (slugOf c) f.summary).2)
        "classColor" color) := by
  obtain ⟨fields, name, rfl, hname, ⟨slug, hslug, hso⟩, hcl⟩ := charResolves_shape c f h
  obtain ⟨color, hcolor⟩ := classColorOf_convertible _ hcl
  refine ⟨color, hcolor, ?_⟩
  rw [hso] at hcolor ⊢
  unfold enrichCharacter
  rw [urlParts_obj, hslug, hname]
  simp only [nameOf, setProp, getProp]
  rw [getMember_setField_ne "itemLevel" "class" _ _ (by decide), getMember_setField_same, hcolor]

theorem enrichCharacter_rejects (fields : List (String × JSVal)) (f : CharFetches)
    (h : charResolves (.obj fields) f = false) :
    ∃ e, (enrichCharacter (.obj fields) f).2 = .error e := by
  unfold enrichCharacter
  rw [urlParts_obj]
  cases hr : hasRealm (.obj fields)
  · simp only [hasRealm, getProp] at hr
    rw [getProp_absent _ "slug" hr]
    exact ⟨_, rfl⟩
  · simp only [hasRealm, getProp] at hr
    obtain ⟨slug, hslug⟩ := getProp_present (getMember fields "realm") "slug" hr
    have hso : slugOf (.obj fields) = slug := slugOf_obj fields slug hslug
    rw [hslug]
    cases hn : nameOf (getMember fields "name") with
    | error e => exact ⟨e, rfl⟩
    | ok n =>
      have htn : hasTextName (.obj fields) = true := by
        simp only [hasTextName, getProp]
        cases hv : getMember fields "name" <;> simp [hv, nameOf] at hn ⊢
      have hr' : hasRealm (.obj fields) = true := by simpa [hasRealm, getProp] using hr
      have hcl : convertible (summaryBranch slug f.summary).1 = false := by
        rw [class_convertible, ← hso]
        simpa [charResolves, hr', htn] using h
      obtain ⟨e, he⟩ := classColorOf_not_convertible _ hcl
      simp only [setProp, getProp]
      rw [getMember_setField_ne "itemLevel" "class" _ _ (by decide), getMember_setField_same, he]
      exact ⟨e, rfl⟩

theorem enrichedChar_resolves (c : JSVal) (f : CharFetches) (h : charResolves c f = true) :
    (enrichCharacter c f).2 = .ok (enrichedChar c f) ∧ IsEnriched (enrichedChar c f) c := by
  obtain ⟨color, _, h⟩ := enrichCharacter_resolves c f h
  unfold enrichedChar
  rw [h]
  exact ⟨rfl, _, _, _, _, _, rfl⟩

theorem enrichedChar_fields (c : JSVal) (f : CharFetches) (hc : charResolves c f = true) :
    getProp (enrichedChar c f) "media" = .ok (mediaBranch (slugOf c) f.media) ∧
    getProp (enrichedChar c f) "mythic_plus_score" = .ok (rankingBranch (slugOf c) f.ranking) ∧
    getProp (enrichedChar c f) "class" = .ok (summaryBranch (slugOf c) f.summary).1 ∧
    getProp (enrichedChar c f) "itemLevel" = .ok (summaryBranch (slugOf c) f.summary).2 ∧
    ∃ color, classColorOf (summaryBranch (slugOf c) f.summary).1 = .ok color ∧
      getProp (enrichedChar c f) "classColor" = .ok color := by
  obtain ⟨color, hcolor, h⟩ := enrichCharacter_resolves c f hc
  obtain ⟨fields, _, rfl, _⟩ := charResolves_shape c f hc
  unfold enrichedChar
  rw [h]
  simp only [setProp, getProp]
  refine ⟨?_, ?_, ?_, ?_, color, hcolor, ?_⟩
  · rw [getMember_setField_ne _ _ _ _ (by decide), getMember_setField_ne _ _ _ _ (by decide),
      getMember_setField_ne _ _ _ _ (by decide), getMember_setField_ne _ _ _ _ (by decide),
      getMember_setField_same]
  · rw [getMember_setField_ne _ _ _ _ (by decide), getMember_setField_ne _ _ _ _ (by decide),
      getMember_setField_ne _ _ _ _ (by decide), getMember_setField_same]
  · rw [getMember_setField_ne _ _ _ _ (by decide), getMember_setField_ne _ _ _ _ (by decide),
      getMember_setField_same]
  · rw [getMember_setField_ne _ _ _ _ (by decide), getMember_setField_same]
  · rw [getMember_setField_same]

theorem charResolves_of_failsMore (c : JSVal) (f g : CharFetches) (hfg : FailsMore f g)
    (h : charResolves c g = true) : charResolves c f = true := by
  simp only [charResolves, Bool.and_eq_true] at h ⊢
  refine ⟨h.1, ?_⟩
  rcases hfg.2.2 with hf | hf
  · rw [hf]
    simp [classNameOf, convertible, jsToString]
  · rw [hf]
    exact h.2

/-! ## Lists of concurrent branches -/

theorem mapFrom_map {α β γ : Type} (g : Nat → α → β) (h : β → γ) (i : Nat) (l : List α) :
    (mapFrom g i l).map h = mapFrom (fun j x => h (g j x)) i l := by
  induction l generalizing i with
  | nil => rfl
  | cons x rest ih => simp [mapFrom, ih]

theorem settle_mapFrom_all (g : Nat → JSVal → Bool) (r : Nat → JSVal → Except JSError JSVal)
    (e : Nat → JSVal → JSVal) (i : Nat) (l : List JSVal)
    (hok : ∀ x ∈ l, ∀ j, g j x = true → r j x = .ok (e j x))
    (herr : ∀ x ∈ l, ∀ j, g j x = false → ∃ err, r j x = .error err) :
    ((mapFrom g i l).all id = true → settle (mapFrom r i l) = .ok (mapFrom e i l)) ∧
    ((mapFrom g i l).all id = false → ∃ err, settle (mapFrom r i l) = .error err) := by
  induction l generalizing i with
  | nil => exact ⟨fun _ => rfl, fun h => by simp [mapFrom] at h⟩
  | cons x rest ih =>
    obtain ⟨ih1, ih2⟩ := ih (i + 1) (fun c hc => hok c (List.mem_cons_of_mem _ hc))
      (fun c hc => herr c (List.mem_cons_of_mem _ hc))
    simp only [mapFrom, List.all_cons, id]
    cases hg : g i x
    · obtain ⟨err, he⟩ := herr x (List.mem_cons_self _ _) i hg
      refine ⟨fun h => by simp at h, fun _ => ⟨err, ?_⟩⟩
      simp only [settle, he]
    · have hx := hok x (List.mem_cons_self _ _) i hg
      refine ⟨fun h => ?_, fun h => ?_⟩
      · simp only [Bool.true_and] at h
        simp only [settle, hx, ih1 h]
      · simp only [Bool.true_and] at h
        obtain ⟨err, he⟩ := ih2 h
        exact ⟨err, by simp only [settle, hx, he]⟩

theorem all_mapFrom_mono {α : Type} (g g' : Nat → α → Bool) (i : Nat) (l : List α)
    (hm : ∀ x ∈ l, ∀ j, g j x = true → g' j x = true)
    (h : (mapFrom g i l).all id = true) : (mapFrom g' i l).all id = true := by
  induction l generalizing i with
  | nil => rfl
  | cons x rest ih =>
    simp only [mapFrom, List.all_cons, id, Bool.and_eq_true] at h ⊢
    exact ⟨hm x (List.mem_cons_self _ _) i h.1,
      ih (i + 1) (fun y hy => hm y (List.mem_cons_of_mem _ hy)) h.2⟩

theorem getElem?_mapFrom {α β : Type} (g : Nat → α → β) (k : Nat) (l : List α) (i : Nat) :
    (mapFrom g k l)[i]? = (l[i]?).map (g (k + i)) := by
  induction l generalizing k i with
  | nil => simp [mapFrom]
  | cons x rest ih =>
    cases i with
    | zero => simp [mapFrom]
    | succ n =>
      simp only [mapFrom, List.getElem?_cons_succ]
      rw [ih (k + 1) n, show k + 1 + n = k + (n + 1) by omega]

theorem all_mapFrom_getElem? {α : Type} (g : Nat → α → Bool) (l : List α)
    (h : (mapFrom g 0 l).all id = true) (i : Nat) (x : α) (hx : l[i]? = some x) :
    g i x = true := by
  have hm : g i x ∈ mapFrom g 0 l := by
    apply List.getElem?_mem (n := i)
    rw [getElem?_mapFrom, hx]
    simp
  have := List.all_eq_true.mp h _ hm
  simpa using this

/-! ## One account -/

theorem bnot_true (b : Bool) (h : (!b) = true) : ¬ b = true := by
  cases b <;> simp_all

theorem bnot_false (b : Bool) (h : (!b) = false) : b = true := by
  cases b <;> simp_all


theorem isMaxLevel_present (c : JSVal) (h : present c = true) :
    isMaxLevel c = .ok (atMaxLevel c) := by
  cases c with
  | undefined => cases h
  | null => cases h
  | obj fields =>
    simp only [isMaxLevel, getProp, getMember, atMaxLevel]
    cases h : lookup "level" fields with
    | none => simp [objectPrototype, objectPrototypeNames, strictEq]
    | some v => cases v <;> simp [strictEq, MAX_LEVEL]
  | arr l => simp [isMaxLevel, getProp, atMaxLevel, strictEq]
  | str s => simp [isMaxLevel, getProp, atMaxLevel, strictEq]
  | illFormed t => simp [isMaxLevel, getProp, atMaxLevel, strictEq]
  | bool b => simp [isMaxLevel, getProp, atMaxLevel, strictEq]
  | num q => simp [isMaxLevel, getProp, atMaxLevel, strictEq]
  | builtin n => simp [isMaxLevel, getProp, atMaxLevel, strictEq]

theorem filterMax_present (items : List JSVal) :
    (items.all present = true → filterMax items = .ok (items.filter atMaxLevel)) ∧
    (items.all present = false → ∃ e, filterMax items = .error e) := by
  induction items with
  | nil => exact ⟨fun _ => rfl, fun h => by simp at h⟩
  | cons c rest ih =>
    simp only [List.all_cons]
    cases hc : present c
    · refine ⟨fun h => by simp at h, fun _ => ⟨.typeError, ?_⟩⟩
      simp only [filterMax, isMaxLevel, getProp_absent c _ hc]
    · simp only [Bool.true_and, filterMax, isMaxLevel_present c hc, List.filter_cons]
      refine ⟨fun h => ?_, fun h => ?_⟩
      · rw [ih.1 h]
      · obtain ⟨e, he⟩ := ih.2 h
        exact ⟨e, by rw [he]⟩

theorem atMaxLevel_obj (c : JSVal) (h : atMaxLevel c = true) : ∃ fields, c = .obj fields := by
  cases c with
  | obj fields => exact ⟨fields, rfl⟩
  | _ => simp [atMaxLevel] at h

theorem charactersOf_setProp (fields : List (String × JSVal)) (cs : List JSVal) :
    charactersOf (setProp (.obj fields) "characters" (.arr cs)) = cs := by
  simp [charactersOf, setProp, lookup_setField_same]

theorem charactersOf_getMember (fields : List (String × JSVal)) :
    charactersOf (.obj fields) =
      match getMember fields "characters" with
      | .arr items => items
      | _ => [] := by
  simp only [charactersOf, getMember]
  cases lookup "characters" fields with
  | none => simp [objectPrototype, objectPrototypeNames]
  | some v => cases v <;> rfl

theorem enrichAccount_arr (fields : List (String × JSVal)) (fetches : Nat → CharFetches)
    (items : List JSVal) (hv : getMember fields "characters" = .arr items) :
    (enrichAccount (.obj fields) fetches).2 =
      if items.isEmpty then .ok (.obj fields)
      else
        match filterMax items with
        | .error e => .error e
        | .ok kept =>
          match settle (mapFrom (fun j c => (enrichCharacter c (fetches j)).2) 0 kept) with
          | .error e => .error e
          | .ok enhanced => .ok (setProp (.obj fields) "characters" (.arr enhanced)) := by
  have h1 : getProp (.obj fields) "characters" = .ok (getMember fields "characters") := rfl
  unfold enrichAccount
  rw [h1, hv]
  cases items with
  | nil => simp [truthy, getProp]
  | cons c rest =>
    have hlen : ((rest.length : ℚ) + 1) ≠ 0 := by positivity
    simp only [truthy, getProp, List.length_cons, Nat.cast_add, Nat.cast_one, if_true,
      Bool.not_true, List.isEmpty_cons]
    simp only [hlen, ne_eq, not_false_eq_true, decide_True, Bool.not_true]
    cases filterMax (c :: rest) with
    | error e => rfl
    | ok kept =>
      simp only [mapFrom_map]
      cases settle (mapFrom (fun j c => (enrichCharacter c (fetches j)).2) 0 kept) with
      | error e => simp
      | ok enhanced => simp [setProp, setField_setField]

theorem enrichAccount_other (fields : List (String × JSVal)) (fetches : Nat → CharFetches)
    (v : JSVal) (hv : getMember fields "characters" = v) (hna : ∀ items, v ≠ .arr items) :
    (enrichAccount (.obj fields) fetches).2 =
      if (truthy v && hasTruthyLength v) = true then .error .typeError
      else .ok (.obj fields) := by
  have h1 : getProp (.obj fields) "characters" = .ok (getMember fields "characters") := rfl
  unfold enrichAccount
  rw [h1, hv]
  simp only
  cases htv : truthy v
  · simp
  · have hp : present v = true := by cases v <;> first | rfl | cases htv
    obtain ⟨len, hlen⟩ := getProp_present v "length" hp
    simp only [hasTruthyLength, hlen, Bool.not_true, Bool.false_eq_true, if_false,
      Bool.true_and]
    cases htl : truthy len
    · simp
    · simp only [Bool.not_true, Bool.false_eq_true, if_false, if_true]

theorem enrichAccount_resolves (a : JSVal) (fetches : Nat → CharFetches)
    (h : accountResolves a fetches = true) :
    (enrichAccount a fetches).2 = .ok (enrichedAccount a fetches) ∧
    (enrichedAccount a fetches = a ∨
      ∃ cs, enrichedAccount a fetches = setProp a "characters" (.arr cs)) ∧
    charactersOf (enrichedAccount a fetches) =
      mapFrom (fun j c => enrichedChar c (fetches j)) 0 ((charactersOf a).filter atMaxLevel) := by
  have key : ∀ a', (enrichAccount a fetches).2 = .ok a' →
      (enrichAccount a fetches).2 = .ok (enrichedAccount a fetches) ∧
      enrichedAccount a fetches = a' := by
    intro a' h
    unfold enrichedAccount
    rw [h]
    exact ⟨rfl, rfl⟩
  have same : (enrichAccount a fetches).2 = .ok a → charactersOf a = [] →
      (enrichAccount a fetches).2 = .ok (enrichedAccount a fetches) ∧
      (enrichedAccount a fetches = a ∨
        ∃ cs, enrichedAccount a fetches = setProp a "characters" (.arr cs)) ∧
      charactersOf (enrichedAccount a fetches) =
        mapFrom (fun j c => enrichedChar c (fetches j)) 0
          ((charactersOf a).filter atMaxLevel) := by
    intro h0 hc
    obtain ⟨h1, h2⟩ := key _ h0
    refine ⟨h1, Or.inl h2, ?_⟩
    rw [h2, hc]
    rfl
  cases a with
  | undefined => cases h
  | null => cases h
  | obj fields =>
    have hco := charactersOf_getMember fields
    simp only [accountResolves] at h
    cases hv : getMember fields "characters" with
    | arr items =>
      have ho := enrichAccount_arr fields fetches items hv
      rw [hv] at hco h
      simp only at hco h
      cases hi : items.isEmpty
      · rw [hi] at ho h
        simp only [Bool.false_or, Bool.and_eq_true] at h
        simp only [Bool.false_eq_true, if_false] at ho
        rw [(filterMax_present items).1 h.1] at ho
        simp only at ho
        have hs := (settle_mapFrom_all (fun j c => charResolves c (fetches j))
          (fun j c => (enrichCharacter c (fetches j)).2)
          (fun j c => enrichedChar c (fetches j)) 0 (items.filter atMaxLevel)
          (fun x _ j hx => (enrichedChar_resolves x (fetches j) hx).1)
          (fun x hx j hr => by
            obtain ⟨fields', rfl⟩ := atMaxLevel_obj x (List.mem_filter.mp hx).2
            exact enrichCharacter_rejects fields' (fetches j) hr)).1 h.2
        rw [hs] at ho
        simp only at ho
        obtain ⟨h1, h2⟩ := key _ ho
        refine ⟨h1, Or.inr ⟨_, h2⟩, ?_⟩
        rw [h2, charactersOf_setProp, hco]
      · rw [hi] at ho
        simp only [if_true] at ho
        have : items = [] := List.isEmpty_iff.mp hi
        exact same ho (by rw [hco, this])
    | _ =>
      have ho := enrichAccount_other fields fetches _ hv (by intro items hh; cases hh)
      rw [hv] at hco h
      simp only at hco h
      rw [if_neg (bnot_true _ h)] at ho
      exact same ho hco
  | bool b => exact same rfl rfl
  | num q => exact same rfl rfl
  | str s => exact same (by simp [enrichAccount, getProp, truthy]) rfl
  | illFormed t => exact same (by simp [enrichAccount, getProp, truthy]) rfl
  | arr l => exact same (by simp [enrichAccount, getProp, truthy]) rfl
  | builtin n => exact same rfl rfl

theorem enrichAccount_rejects (a : JSVal) (fetches : Nat → CharFetches)
    (h : accountResolves a fetches = false) :
    ∃ e, (enrichAccount a fetches).2 = .error e := by
  cases a with
  | undefined => exact ⟨_, rfl⟩
  | null => exact ⟨_, rfl⟩
  | obj fields =>
    simp only [accountResolves] at h
    cases hv : getMember fields "characters" with
    | arr items =>
      rw [enrichAccount_arr fields fetches items hv]
      rw [hv] at h
      simp only [Bool.or_eq_false_iff] at h ⊢
      rw [h.1]
      simp only [Bool.false_eq_true, if_false]
      cases hp : items.all present
      · obtain ⟨e, he⟩ := (filterMax_present items).2 hp
        rw [he]
        exact ⟨e, rfl⟩
      · rw [(filterMax_present items).1 hp]
        simp only
        have h2 : (mapFrom (fun j c => charResolves c (fetches j)) 0
            (items.filter atMaxLevel)).all id = false := by
          have := h.2
          rw [hp] at this
          simpa using this
        obtain ⟨e, he⟩ := (settle_mapFrom_all (fun j c => charResolves c (fetches j))
          (fun j c => (enrichCharacter c (fetches j)).2)
          (fun j c => enrichedChar c (fetches j)) 0 (items.filter atMaxLevel)
          (fun x _ j hx => (enrichedChar_resolves x (fetches j) hx).1)
          (fun x hx j hr => by
            obtain ⟨fields', rfl⟩ := atMaxLevel_obj x (List.mem_filter.mp hx).2
            exact enrichCharacter_rejects fields' (fetches j) hr)).2 h2
        rw [he]
        exact ⟨e, rfl⟩
    | _ =>
      rw [enrichAccount_other fields fetches _ hv (by intro items hh; cases hh)]
      rw [hv] at h
      simp only at h
      rw [if_pos (bnot_false _ h)]
      exact ⟨_, rfl⟩
  | bool b => cases h
  | num q => cases h
  | str s => cases h
  | illFormed t => cases h
  | arr l => cases h
  | builtin n => cases h

theorem accountResolves_mono (a : JSVal) (fs fs' : Nat → CharFetches)
    (hm : ∀ j c, charResolves c (fs j) = true → charResolves c (fs' j) = true)
    (h : accountResolves a fs = true) : accountResolves a fs' = true := by
  cases a with
  | obj fields =>
    simp only [accountResolves] at h ⊢
    cases hv : getMember fields "characters" with
    | arr items =>
      rw [hv] at h
      simp only [Bool.or_eq_true, Bool.and_eq_true] at h ⊢
      rcases h with h | h
      · exact Or.inl h
      · exact Or.inr ⟨h.1, all_mapFrom_mono _ _ 0 _ (fun x _ j hx => hm j x hx) h.2⟩
    | _ => rw [hv] at h; exact h
  | _ => exact h

/-! ## The whole profile -/

theorem enrichProfile_arr (fields : List (String × JSVal)) (accounts : List JSVal) (w : World)
    (haccounts : lookup "wow_accounts" fields = some (.arr accounts))
    (hne : accounts ≠ []) :
    (enrichProfile (.obj fields) w).2 =
      match settle (mapFrom (fun i a => (enrichAccount a (w.chars i)).2) 0 accounts) with
      | .error e => .error e
      | .ok enhanced => .ok (setProp (.obj fields) "wow_accounts" (.arr enhanced)) := by
  cases accounts with
  | nil => exact absurd rfl hne
  | cons a rest =>
    have hlen : ((rest.length : ℚ) + 1) ≠ 0 := by positivity
    unfold enrichProfile
    simp only [getProp, getMember, haccounts, truthy, if_true, List.length_cons, Nat.cast_add,
      Nat.cast_one]
    simp only [hlen, ne_eq, not_false_eq_true, decide_True, Bool.not_true, Bool.false_eq_true,
      if_false, mapFrom_map]

theorem settle_accounts (accounts : List JSVal) (w : World) :
    (requestResolves accounts w = true →
      settle (mapFrom (fun i a => (enrichAccount a (w.chars i)).2) 0 accounts)
        = .ok (mapFrom (fun i a => enrichedAccount a (w.chars i)) 0 accounts)) ∧
    (requestResolves accounts w = false →
      ∃ e, settle (mapFrom (fun i a => (enrichAccount a (w.chars i)).2) 0 accounts)
        = .error e) :=
  settle_mapFrom_all (fun i a => accountResolves a (w.chars i))
    (fun i a => (enrichAccount a (w.chars i)).2)
    (fun i a => enrichedAccount a (w.chars i)) 0 accounts
    (fun x _ i hx => (enrichAccount_resolves x (w.chars i) hx).1)
    (fun x _ i hx => enrichAccount_rejects x (w.chars i) hx)

theorem profile_of_base (s : Session) (w : World) (profileData : JSVal)
    (htoken : truthy s.access_token = true) (htext : convertible s.access_token = true)
    (hbase : w.base = .ok profileData) :
    (profile s w).response =
      match (enrichProfile profileData w).2 with
      | .error _ => .status 500 "Failed to fetch profile"
      | .ok body => .json body := by
  obtain ⟨t, ht⟩ := convertible_ok _ htext
  rw [profile_of_token s w htoken, ht, hbase]
  simp only
  rcases enrichProfile profileData w with ⟨calls, r⟩
  cases r <;> rfl

theorem profile_resolves (s : Session) (w : World)
    (fields : List (String × JSVal)) (accounts : List JSVal)
    (htoken : truthy s.access_token = true) (htext : convertible s.access_token = true)
    (hbase : w.base = .ok (.obj fields))
    (haccounts : lookup "wow_accounts" fields = some (.arr accounts))
    (hne : accounts ≠ [])
    (hres : requestResolves accounts w = true) :
    (profile s w).response = .json (setProp (.obj fields) "wow_accounts"
      (.arr (mapFrom (fun i a => enrichedAccount a (w.chars i)) 0 accounts))) := by
  rw [profile_of_base s w _ htoken htext hbase,
    enrichProfile_arr fields accounts w haccounts hne, (settle_accounts accounts w).1 hres]

theorem profile_rejects (s : Session) (w : World)
    (fields : List (String × JSVal)) (accounts : List JSVal)
    (htoken : truthy s.access_token = true) (htext : convertible s.access_token = true)
    (hbase : w.base = .ok (.obj fields))
    (haccounts : lookup "wow_accounts" fields = some (.arr accounts))
    (hne : accounts ≠ [])
    (hres : requestResolves accounts w = false) :
    (profile s w).response = .status 500 "Failed to fetch profile" := by
  obtain ⟨e, he⟩ := (settle_accounts accounts w).2 hres
  rw [profile_of_base s w _ htoken htext hbase,
    enrichProfile_arr fields accounts w haccounts hne, he]

theorem accountsOf_setProp (fields : List (String × JSVal)) (accounts : List JSVal) :
    accountsOf (setProp (.obj fields) "wow_accounts" (.arr accounts)) = accounts := by
  simp [accountsOf, setProp, lookup_setField_same]

theorem charAt_profile (s : Session) (w : World)
    (fields : List (String × JSVal)) (accounts : List JSVal)
    (htoken : truthy s.access_token = true) (htext : convertible s.access_token = true)
    (hbase : w.base = .ok (.obj fields))
    (haccounts : lookup "wow_accounts" fields = some (.arr accounts))
    (hne : accounts ≠ [])
    (hres : requestResolves accounts w = true) (i j : Nat) :
    charAt (profile s w).response i j =
      (baseCharAt accounts i j).map (fun c => enrichedChar c (w.chars i j)) := by
  rw [profile_resolves s w fields accounts htoken htext hbase haccounts hne hres]
  simp only [charAt, accountsOf_setProp, getElem?_mapFrom, baseCharAt]
  cases hi : accounts[i]? with
  | none => rfl
  | some a =>
    have ha : accountResolves a (w.chars i) = true :=
      all_mapFrom_getElem? (fun i a => accountResolves a (w.chars i)) accounts hres i a hi
    simp only [Option.map_some', Nat.zero_add]
    rw [(enrichAccount_resolves a (w.chars i) ha).2.2, getElem?_mapFrom]
    simp

theorem baseCharAt_resolves (accounts : List JSVal) (w : World)
    (hres : requestResolves accounts w = true) (i j : Nat) (b : JSVal)
    (h : baseCharAt accounts i j = some b) : charResolves b (w.chars i j) = true := by
  unfold baseCharAt at h
  cases hi : accounts[i]? with
  | none => simp [hi] at h
  | some a =>
    rw [hi] at h
    simp only at h
    have ha : accountResolves a (w.chars i) = true :=
      all_mapFrom_getElem? (fun i a => accountResolves a (w.chars i)) accounts hres i a hi
    cases a with
    | obj fields =>
      rw [charactersOf_getMember] at h
      simp only [accountResolves] at ha
      cases hv : getMember fields "characters" with
      | arr items =>
        rw [hv] at h ha
        simp only [Bool.or_eq_true, Bool.and_eq_true] at h ha
        rcases ha with ha | ha
        · have : items = [] := List.isEmpty_iff.mp ha
          subst this
          simp at h
        · exact all_mapFrom_getElem? (fun j c => charResolves c (w.chars i j)) _ ha.2 j b h
      | _ => rw [hv] at h; simp at h
    | _ => simp [charactersOf] at h

theorem requestResolves_mono (accounts : List JSVal) (w w' : World)
    (hm : ∀ i j, FailsMore (w'.chars i j) (w.chars i j))
    (h : requestResolves accounts w = true) : requestResolves accounts w' = true :=
  all_mapFrom_mono _ _ 0 accounts
    (fun a _ i ha => accountResolves_mono a (w.chars i) (w'.chars i)
      (fun j c hc => charResolves_of_failsMore c _ _ (hm i j) hc) ha) h

/-- C3 (as amended): for a base profile with at least one account, fetched with
the token of the session, and whatever the per-character fetches answer, the
request is answered 500 exactly when a
step outside the `try` blocks throws (`requestResolves` is false: an account is
`null`, a `characters` value with a truthy length is not an array or holds
`null`, or a character at level 80 lacks a realm, has a name that is not a
well-formed string, or gets a class name that cannot be converted to text).
Otherwise the response carries the profile with its accounts in the same
order, each account being the base account itself or the base account with a
new character list; the character list of each account consists, in order, of
the enriched base characters whose level is 80 (none of another level), and is
empty for an account without such a character. -/
theorem profile_keeps_max_level (s : Session) (w : World)
    (fields : List (String × JSVal)) (accounts : List JSVal)
    (htoken : truthy s.access_token = true) (htext : convertible s.access_token = true)
    (hbase : w.base = .ok (.obj fields))
    (haccounts : lookup "wow_accounts" fields = some (.arr accounts))
    (hne : accounts ≠ []) :
    (requestResolves accounts w = true →
      ∃ enhanced,
        (profile s w).response
          = .json (setProp (.obj fields) "wow_accounts" (.arr enhanced)) ∧
        List.Forall₂ (fun a' a =>
            (a' = a ∨ ∃ cs, a' = setProp a "characters" (.arr cs)) ∧
            List.Forall₂ IsEnriched (charactersOf a') ((charactersOf a).filter atMaxLevel))
          enhanced accounts) ∧
    (requestResolves accounts w = false →
      (profile s w).response = .status 500 "Failed to fetch profile") := by
  refine ⟨fun hres => ?_, fun hres =>
    profile_rejects s w fields accounts htoken htext hbase haccounts hne hres⟩
  refine ⟨_, profile_resolves s w fields accounts htoken htext hbase haccounts hne
    hres, ?_⟩
  have hall : ∀ i a, accounts[i]? = some a → accountResolves a (w.chars i) = true :=
    fun i a hi =>
      all_mapFrom_getElem? (fun i a => accountResolves a (w.chars i)) accounts hres i a hi
  have hchar : ∀ i j b, baseCharAt accounts i j = some b →
      charResolves b (w.chars i j) = true :=
    fun i j b hb => baseCharAt_resolves accounts w hres i j b hb
  rw [List.forall₂_iff_get]
  refine ⟨?_, ?_⟩
  · have : ∀ (k : Nat) (l : List JSVal),
        (mapFrom (fun i a => enrichedAccount a (w.chars i)) k l).length = l.length := by
      intro k l
      induction l generalizing k with
      | nil => rfl
      | cons x rest ih => simp [mapFrom, ih]
    exact this 0 accounts
  · intro i h1 h2
    have hi : accounts[i]? = some (accounts.get ⟨i, h2⟩) := by
      simp [List.getElem?_eq_getElem h2]
    have hget : (mapFrom (fun i a => enrichedAccount a (w.chars i)) 0 accounts).get ⟨i, h1⟩
        = enrichedAccount (accounts.get ⟨i, h2⟩) (w.chars i) := by
      have h3 := getElem?_mapFrom (fun i a => enrichedAccount a (w.chars i)) 0 accounts i
      rw [hi, List.getElem?_eq_getElem h1] at h3
      simpa using h3
    rw [hget]
    obtain ⟨_, e2, e3⟩ := enrichAccount_resolves _ (w.chars i) (hall i _ hi)
    refine ⟨e2, ?_⟩
    rw [e3, List.forall₂_iff_get]
    have hlen : ∀ (k : Nat) (l : List JSVal),
        (mapFrom (fun j c => enrichedChar c (w.chars i j)) k l).length = l.length := by
      intro k l
      induction l generalizing k with
      | nil => rfl
      | cons x rest ih => simp [mapFrom, ih]
    refine ⟨hlen 0 _, ?_⟩
    intro j g1 g2
    have hj : ((charactersOf (accounts.get ⟨i, h2⟩)).filter atMaxLevel)[j]?
        = some (((charactersOf (accounts.get ⟨i, h2⟩)).filter atMaxLevel).get ⟨j, g2⟩) := by
      simp [List.getElem?_eq_getElem g2]
    have hgetc : (mapFrom (fun j c => enrichedChar c (w.chars i j)) 0
        ((charactersOf (accounts.get ⟨i, h2⟩)).filter atMaxLevel)).get ⟨j, g1⟩
        = enrichedChar (((charactersOf (accounts.get ⟨i, h2⟩)).filter atMaxLevel).get ⟨j, g2⟩)
            (w.chars i j) := by
      have h3 := getElem?_mapFrom (fun j c => enrichedChar c (w.chars i j)) 0
        ((charactersOf (accounts.get ⟨i, h2⟩)).filter atMaxLevel) j
      rw [hj, List.getElem?_eq_getElem g1] at h3
      simpa using h3
    rw [hgetc]
    apply (enrichedChar_resolves _ (w.chars i j) (hchar i j _ ?_)).2
    simp only [baseCharAt, hi, hj]

/-- C3 witness: one account with A (level 80) and B (level 79) yields that
account with exactly the character A, enriched; a character at level 80
without name makes the request fail. -/
theorem profile_keeps_max_level_witness :
    (∃ enhanced,
      (profile sampleSession sampleWorld).response
        = .json (setProp (.obj sampleFields) "wow_accounts" (.arr enhanced)) ∧
      List.Forall₂ (fun a' a =>
          (a' = a ∨ ∃ cs, a' = setProp a "characters" (.arr cs)) ∧
          List.Forall₂ IsEnriched (charactersOf a') ((charactersOf a).filter atMaxLevel))
        enhanced [.obj [("id", .num 1), ("characters", .arr [charA, charB])]]) ∧
    (profile sampleSession sampleWorld).response =
      .json (.obj [("id", .num 7), ("wow_accounts", .arr [.obj [("id", .num 1),
        ("characters", .arr [.obj [("name", .str "A"),
          ("realm", .obj [("slug", .str "stormrage")]), ("level", .num 80),
          ("media", .obj [("avatar_url", .str "V")]), ("mythic_plus_score", .num 2500),
          ("class", .str "Druid"), ("itemLevel", .num 619),
          ("classColor", .str "#FF7D0A")]])]])]) ∧
    (profile sampleSession (worldOf namelessChar)).response
      = .status 500 "Failed to fetch profile" :=
  ⟨(profile_keeps_max_level sampleSession sampleWorld sampleFields
      [.obj [("id", .num 1), ("characters", .arr [charA, charB])]]
      rfl rfl rfl rfl (by simp)).1 rfl,
   rfl,
   (profile_keeps_max_level sampleSession (worldOf namelessChar)
      [("wow_accounts", .arr [.obj [("characters", .arr [namelessChar])]])]
      [.obj [("characters", .arr [namelessChar])]]
      rfl rfl rfl rfl (by simp)).2 rfl⟩

/-- C3 counterexample: a base profile with one account whose only character is
at level 80 and has no name, or has a name with a lone surrogate, is answered
500 although every fetch succeeds: the response carries no account. -/
theorem profile_fails_on_name :
    accountsOf (.obj [("wow_accounts", .arr [.obj [("characters", .arr [namelessChar])]])])
      = [.obj [("characters", .arr [namelessChar])]] ∧
    (worldOf namelessChar).base
      = .ok (.obj [("wow_accounts", .arr [.obj [("characters", .arr [namelessChar])]])]) ∧
    (profile sampleSession (worldOf namelessChar)).response
      = .status 500 "Failed to fetch profile" ∧
    (profile sampleSession (worldOf loneNameChar)).response
      = .status 500 "Failed to fetch profile" :=
  ⟨rfl, rfl, rfl, rfl⟩

/-- C5 (as amended): for a request on which no step outside the `try` blocks
throws (`requestResolves`, see C3), the request succeeds whatever fetches fail,
and failing further fetches never makes it fail.  Every character of the
response has its avatar, score, class and item level from the answer to its
own fetch of that branch; a failed media, ranking or summary fetch gives the
default of that branch (avatar URL empty, score N/A, class Unknown and item
level N/A).  Against a provider `w'` that differs in other answers only, a
field is the same, and a character all of whose answers are the same is the
same. -/
theorem branch_failure_isolated (s : Session) (w : World)
    (fields : List (String × JSVal)) (accounts : List JSVal)
    (htoken : truthy s.access_token = true) (htext : convertible s.access_token = true)
    (hbase : w.base = .ok (.obj fields))
    (haccounts : lookup "wow_accounts" fields = some (.arr accounts))
    (hne : accounts ≠ [])
    (hres : requestResolves accounts w = true) :
    (∃ body, (profile s w).response = .json body) ∧
    (∀ w', w'.base = .ok (.obj fields) → (∀ i j, FailsMore (w'.chars i j) (w.chars i j)) →
      ∃ body, (profile s w').response = .json body) ∧
    (∀ i j b, baseCharAt accounts i j = some b →
      ∃ c, charAt (profile s w).response i j = some c ∧
        getProp c "media" = .ok (mediaBranch (slugOf b) (w.chars i j).media) ∧
        getProp c "mythic_plus_score" = .ok (rankingBranch (slugOf b) (w.chars i j).ranking) ∧
        getProp c "class" = .ok (summaryBranch (slugOf b) (w.chars i j).summary).1 ∧
        getProp c "itemLevel" = .ok (summaryBranch (slugOf b) (w.chars i j).summary).2) ∧
    (∀ i j c, charAt (profile s w).response i j = some c →
      ((w.chars i j).media = .failed →
        getProp c "media" = .ok (.obj [("avatar_url", .str "")])) ∧
      ((w.chars i j).ranking = .failed →
        getProp c "mythic_plus_score" = .ok (.str "N/A")) ∧
      ((w.chars i j).summary = .failed →
        getProp c "class" = .ok (.str "Unknown") ∧
        getProp c "itemLevel" = .ok (.str "N/A"))) ∧
    (∀ w', w'.base = .ok (.obj fields) → requestResolves accounts w' = true →
      (∀ i j, (charAt (profile s w).response i j).isSome
        = (charAt (profile s w').response i j).isSome) ∧
      (∀ i j, w.chars i j = w'.chars i j →
        charAt (profile s w).response i j = charAt (profile s w').response i j) ∧
      (∀ i j c c', charAt (profile s w).response i j = some c →
        charAt (profile s w').response i j = some c' →
        ((w.chars i j).media = (w'.chars i j).media →
          getProp c "media" = getProp c' "media") ∧
        ((w.chars i j).ranking = (w'.chars i j).ranking →
          getProp c "mythic_plus_score" = getProp c' "mythic_plus_score") ∧
        ((w.chars i j).summary = (w'.chars i j).summary →
          getProp c "class" = getProp c' "class" ∧
          getProp c "itemLevel" = getProp c' "itemLevel" ∧
          getProp c "classColor" = getProp c' "classColor"))) := by
  have hc := charAt_profile s w fields accounts htoken htext hbase haccounts hne hres
  have hr := baseCharAt_resolves accounts w hres
  refine ⟨⟨_, profile_resolves s w fields accounts htoken htext hbase haccounts hne
    hres⟩, ?_, ?_, ?_, ?_⟩
  · intro w' hbase' hm
    exact ⟨_, profile_resolves s w' fields accounts htoken htext hbase' haccounts hne
      (requestResolves_mono accounts w w' hm hres)⟩
  · intro i j b hb
    obtain ⟨f1, f2, f3, f4, _⟩ := enrichedChar_fields b (w.chars i j) (hr i j b hb)
    exact ⟨enrichedChar b (w.chars i j), by rw [hc, hb]; rfl, f1, f2, f3, f4⟩
  · intro i j c h
    rw [hc] at h
    cases hb : baseCharAt accounts i j with
    | none => simp [hb] at h
    | some b =>
      simp only [hb, Option.map_some', Option.some.injEq] at h
      subst h
      obtain ⟨f1, f2, f3, f4, _⟩ := enrichedChar_fields b (w.chars i j) (hr i j b hb)
      refine ⟨?_, ?_, ?_⟩
      · intro hf
        rw [f1, hf, mediaBranch, attempt_failed]
      · intro hf
        rw [f2, hf, rankingBranch, attempt_failed]
      · intro hf
        rw [f3, f4, hf, summaryBranch, attempt_failed]
        exact ⟨rfl, rfl⟩
  · intro w' hbase' hres'
    have hc' := charAt_profile s w' fields accounts htoken htext hbase' haccounts hne
      hres'
    have hr' := baseCharAt_resolves accounts w' hres'
    refine ⟨?_, ?_, ?_⟩
    · intro i j
      rw [hc, hc']
      simp
    · intro i j h
      rw [hc, hc', h]
    · intro i j c c' h h'
      rw [hc] at h
      rw [hc'] at h'
      cases hb : baseCharAt accounts i j with
      | none => simp [hb] at h
      | some b =>
        simp only [hb, Option.map_some', Option.some.injEq] at h h'
        subst h
        subst h'
        obtain ⟨f1, f2, f3, f4, col, hcol, f5⟩ :=
          enrichedChar_fields b (w.chars i j) (hr i j b hb)
        obtain ⟨g1, g2, g3, g4, col', hcol', g5⟩ :=
          enrichedChar_fields b (w'.chars i j) (hr' i j b hb)
        refine ⟨?_, ?_, ?_⟩
        · intro hf
          rw [f1, g1, hf]
        · intro hf
          rw [f2, g2, hf]
        · intro hf
          rw [hf] at f3 f4 hcol
          rw [f3, g3, f4, g4, f5, g5]
          refine ⟨rfl, rfl, ?_⟩
          rw [hcol] at hcol'
          exact hcol'

/-- C5 witness: when the ranking request of the first of two characters at
level 80 fails, the request succeeds, that character has the score N/A with
its avatar, class and item level in place, and the other character is as it
is when nothing fails. -/
theorem branch_failure_isolated_witness :
    (∃ body, (profile sampleSession rankingDownWorld).response = .json body) ∧
    (profile sampleSession rankingDownWorld).response =
      .json (.obj [("wow_accounts", .arr [.obj [("characters", .arr [
        .obj [("name", .str "A"),
          ("realm", .obj [("slug", .str "stormrage")]), ("level", .num 80),
          ("media", .obj [("avatar_url", .str "V")]), ("mythic_plus_score", .str "N/A"),
          ("class", .str "Druid"), ("itemLevel", .num 619),
          ("classColor", .str "#FF7D0A")],
        .obj [("name", .str "C"),
          ("realm", .obj [("slug", .str "proudmoore")]), ("level", .num 80),
          ("media", .obj [("avatar_url", .str "V")]), ("mythic_plus_score", .num 2500),
          ("class", .str "Druid"), ("itemLevel", .num 619),
          ("classColor", .str "#FF7D0A")]])]])]) ∧
    charAt (profile sampleSession rankingDownWorld).response 0 1
      = charAt (profile sampleSession pairWorld).response 0 1 :=
  ⟨(branch_failure_isolated sampleSession rankingDownWorld pairFields
      [.obj [("characters", .arr [charA, charB, charC])]]
      rfl rfl rfl rfl (by simp) rfl).1,
   rfl,
   ((branch_failure_isolated sampleSession rankingDownWorld pairFields
      [.obj [("characters", .arr [charA, charB, charC])]]
      rfl rfl rfl rfl (by simp) rfl).2.2.2.2 pairWorld rfl rfl).2.1 0 1 rfl⟩

/-- C5 counterexample: the ranking fetch of the character fails and its
summary answer names a class that is an object with an own `toString`
property; the request is answered 500 instead of succeeding. -/
theorem request_fails_on_class :
    objectClassWorld.base = .ok (.obj sampleFields) ∧
    (objectClassWorld.chars 0 0).ranking = .failed ∧
    (profile sampleSession objectClassWorld).response
      = .status 500 "Failed to fetch profile" :=
  ⟨rfl, rfl, rfl⟩

end Blizz
